import Mathlib

/-!
# Verification of the PyPardot authenticated request/retry core

Shallow embedding of `pypardot/client.py` (class `PardotAPI`): the API-key
lifecycle, request construction, response classification and the one-shot
re-authentication retry protocol, together with the delegation surface of the
resource wrappers (`pydot/objects/accounts.py`, `pypardot/objects/visits.py`).

Python dictionaries holding JSON bodies are modelled as association lists of
string keys to JSON values; the HTTP transport is modelled as an environment
mapping the index of an outbound request (the number of requests already sent)
and the request itself to an HTTP response.  Exceptions are modelled with
`Except`; the ordinary recursion of the Python methods (which is not
structurally terminating: `post` → `_handle_expired_api_key` → `authenticate`
→ `post`) is interpreted with explicit fuel.
-/

/-- A JSON scalar value, with Python truthiness and Python `str()` rendering. -/
inductive JVal where
  | str (s : String)
  | num (n : Int)
  | bool (b : Bool)
  | null
deriving DecidableEq, Repr

/-- Python truthiness of a JSON scalar (`if value:`). -/
def JVal.pyTruthy : JVal → Bool
  | .str s => !(s == "")
  | .num n => !(n == 0)
  | .bool b => b
  | .null => false

/-- Python `str()` of a JSON scalar (used by `"...".format(...)`). -/
def JVal.pyStr : JVal → String
  | .str s => s
  | .num n => toString n
  | .bool b => if b then "True" else "False"
  | .null => "None"

/-- A decoded JSON object body: an association list, as a Python dict. -/
abbrev Json := List (String × JVal)

/-- Python `dict.get(k)`: the value at the first matching key, else `None`. -/
def Json.get (j : Json) (k : String) : Option JVal :=
  match j with
  | [] => none
  | (k', v) :: rest => if k' == k then some v else Json.get rest k

/-- Python `dict.get(k)` on a decoded JSON body, as seen by `authenticate`:
JSON `null` decodes to Python `None`, so a field whose value is null is
indistinguishable from a missing key — both yield `None`. -/
def Json.pyGet (j : Json) (k : String) : Option JVal :=
  match Json.get j k with
  | some .null => none
  | v => v

/-- Query/body parameter mappings: string keys to string values. -/
abbrev Params := List (String × String)

/-- Python `dict.update({k: v})` on a params dict: replace the value at an
existing key in place (keeping its position), otherwise append the entry. -/
def Params.updateEntry : Params → String → String → Params
  | [], k, v => [(k, v)]
  | (k', v') :: rest, k, v =>
    if k' == k then (k, v) :: rest else (k', v') :: Params.updateEntry rest k v

/-- Python `dict.get(k)` on a params dict. -/
def Params.lookupVal : Params → String → Option String
  | [], _ => none
  | (k', v') :: rest, k => if k' == k then some v' else Params.lookupVal rest k

/-- Modelled from the spec (the file `errors.py` is not under `src/`): the spec says an
API Error "carries a message and the raw decoded error body"; its scenarios
place the human-readable message (e.g. "Invalid API key or user key",
"Invalid login") in the `err_msg` field of the decoded JSON body, so the
`message` attribute is read from that field. -/
structure PardotAPIError where
  json_response : Json
deriving DecidableEq, Repr

/-- Modelled from the spec: the message carried by a `PardotAPIError`, read
from the `err_msg` field of the raw decoded error body (empty when absent). -/
def PardotAPIError.message (e : PardotAPIError) : String :=
  match e.json_response.get "err_msg" with
  | some v => v.pyStr
  | none => ""

/-- An exception escaping a core operation: a `PardotAPIError`, or the
`AttributeError` Python raises when `.get` is called on an `int`
(`authenticate` does so when the login response carried no JSON body). -/
inductive Exc where
  | api (e : PardotAPIError)
  | attrError
deriving DecidableEq, Repr

/-- The classified success value of a request: a decoded JSON body, or the raw
HTTP status code when the response was not JSON. -/
inductive Outcome where
  | json (j : Json)
  | status (n : Nat)
deriving DecidableEq, Repr

/-- An HTTP response as seen by `_check_response`: the `content-type` header
(absent when the server sent none), the decoded JSON body (only inspected when
the content type is JSON) and the numeric status code. -/
structure HttpResponse where
  contentType : Option String
  body : Json
  status_code : Nat
deriving DecidableEq, Repr

/-- HTTP verb of an outbound request. -/
inductive Verb where
  | get
  | post
deriving DecidableEq, Repr

/-- An outbound HTTP request as handed to the transport: verb, full URL,
query parameters, optional body data (POST only) and headers. -/
structure Req where
  verb : Verb
  url : String
  params : Params
  data : Option Params
  headers : List (String × String)
deriving DecidableEq, Repr

/-- The mutable client state: the credential triple fixed at construction and
the API key cell (`self.api_key`), `none` when absent.  A present key is any
value Python would have stored, hence an arbitrary JSON scalar. -/
structure St where
  email : String
  password : String
  user_key : String
  api_key : Option JVal
deriving DecidableEq, Repr

/-- Python truthiness of `self.api_key` (`if self.api_key`): false when the
key is `None` and when it is a falsy value such as the empty string. -/
def St.keyTruthy (st : St) : Bool :=
  match st.api_key with
  | none => false
  | some v => v.pyTruthy

/-- Constant `BASE_URI` from `client.py`. -/
def BASE_URI : String := "https://pi.pardot.com"

/-- Method `PardotAPI._full_path` at the default version 3: base URI, fixed `/api/`
prefix, object name, fixed version segment, then the optional suffix appended
only when truthy (an empty-string path is dropped, like Python `if path:`). -/
def fullPath (object_name : String) (path : Option String) : String :=
  let full := BASE_URI ++ "/api/" ++ object_name ++ "/version/" ++ toString 3
  match path with
  | some p => if p == "" then full else full ++ p
  | none => full

/-- The Authorization header value built by `get`/`post`:
`"Pardot api_key={}, user_key={}".format(self.api_key, self.user_key)`. -/
def authHeaderValue (st : St) : String :=
  "Pardot api_key=" ++ (match st.api_key with
                        | some v => v.pyStr
                        | none => "None") ++ ", user_key=" ++ st.user_key

/-- The request `get`/`post` hands to the transport: the Authorization header
is attached exactly when `self.api_key` is truthy, with the value built by
`authHeaderValue`; GET requests carry no body. -/
def mkRequest (st : St) (v : Verb) (url : String) (params : Params)
    (data : Option Params) : Req :=
  { verb := v
    url := url
    params := params
    data := data
    headers := if st.keyTruthy then [("Authorization", authHeaderValue st)] else [] }

/-- Method `PardotAPI._check_response`: when the `content-type` header equals
`application/json`, decode the body and raise a `PardotAPIError` carrying it
exactly when the `err` field is truthy, otherwise return the body; when the
content type is anything else, return the raw status code. -/
def checkResponse (r : HttpResponse) : Except PardotAPIError Outcome :=
  if r.contentType == some "application/json" then
    match r.body.get "err" with
    | some e => if e.pyTruthy then .error ⟨r.body⟩ else .ok (.json r.body)
    | none => .ok (.json r.body)
  else
    .ok (.status r.status_code)

/-- The transport environment: given the number of requests already sent and
the outbound request, produce the HTTP response the server answers with. -/
abbrev Env := Nat → Req → HttpResponse

/-- The observable trace of a run: every outbound request in order, and every
value written to the `self.api_key` cell in order. -/
structure TraceLog where
  reqs : List Req
  keyWrites : List (Option JVal)
deriving DecidableEq, Repr

/-- The procedures of the core, one per method of `PardotAPI` that takes part
in the mutual recursion: `get`, `post`, `_check_auth`, `authenticate` and
`_handle_expired_api_key`. -/
inductive Proc where
  | pget (object_name : String) (path : Option String) (params : Params) (retries : Nat)
  | ppost (object_name : String) (path : Option String) (params : Params) (retries : Nat)
      (data : Option Params)
  | pcheckAuth (object_name : String)
  | pauth
  | phandle (err : PardotAPIError) (retries : Nat) (method : Verb)
      (object_name : String) (path : Option String) (params : Params)
deriving DecidableEq, Repr

/-- The value a procedure returns normally: `None` (from `_check_auth`), a
boolean (from `authenticate`) or a classified `Outcome` (from `get`/`post` and
`_handle_expired_api_key`). -/
inductive PValue where
  | unit
  | bool (b : Bool)
  | outcome (o : Outcome)
deriving DecidableEq, Repr

/-- Fueled interpreter for the mutually recursive methods of `PardotAPI`.
Returns `none` in the first component when the fuel runs out, otherwise the
normal value or the escaping exception together with the final state; the
second component is the trace accumulated so far (also on fuel exhaustion).

Each branch is a direct transcription of `client.py`:
* `pget`/`ppost`: update `params` with `format=json`; run `_check_auth`
  (exceptions other than `PardotAPIError` propagate; `PardotAPIError` cannot
  escape `_check_auth` because `authenticate` catches it); build the headers
  from the current key; send the request; classify the response; on a
  `PardotAPIError` whose message is `Invalid API key or user key` defer to
  `_handle_expired_api_key`, every other error propagates.
* `pcheckAuth`: no-op when the object name is `login` or a key is present,
  otherwise call `authenticate` (ignoring its boolean).
* `pauth`: POST to `login` with the credential as body; on a `PardotAPIError`
  return `False`; on a JSON outcome write `auth.get('api_key')` into the key
  cell and return whether it is not `None` — a null-valued `api_key` field
  decodes to Python `None` (`Json.pyGet`), so it is written as absent and the
  method returns `False`; on a status-code outcome Python raises
  `AttributeError` (`int` has no `.get`).
* `phandle`: re-raise when `retries != 0`; otherwise write `None` into the key
  cell, call `authenticate`, and on success replay the request with
  `retries=1` — the replayed POST carries no `data` because
  `_handle_expired_api_key` is not given the original body. -/
def run : Nat → Env → St → TraceLog → Proc →
    Option (Except Exc PValue × St) × TraceLog
  | 0, _, _, log, _ => (none, log)
  | fuel + 1, env, st, log, p =>
    match p with
    | .pcheckAuth obj =>
      if obj == "login" then (some (.ok .unit, st), log)
      else
        match st.api_key with
        | some _ => (some (.ok .unit, st), log)
        | none =>
          match run fuel env st log .pauth with
          | (none, log') => (none, log')
          | (some (.error e, st'), log') => (some (.error e, st'), log')
          | (some (.ok _, st'), log') => (some (.ok .unit, st'), log')
    | .pauth =>
      let d : Params := [("email", st.email), ("password", st.password),
                         ("user_key", st.user_key)]
      match run fuel env st log (.ppost "login" none [] 0 (some d)) with
      | (none, log') => (none, log')
      | (some (.error (.api _), st'), log') => (some (.ok (.bool false), st'), log')
      | (some (.error .attrError, st'), log') => (some (.error .attrError, st'), log')
      | (some (.ok v, st'), log') =>
        match v with
        | .outcome (.json j) =>
          let k := j.pyGet "api_key"
          (some (.ok (.bool k.isSome), { st' with api_key := k }),
           { log' with keyWrites := log'.keyWrites ++ [k] })
        | .outcome (.status _) => (some (.error .attrError, st'), log')
        | _ => (none, log')
    | .pget obj path params retries =>
      let params' := Params.updateEntry params "format" "json"
      match run fuel env st log (.pcheckAuth obj) with
      | (none, log') => (none, log')
      | (some (.error e, st'), log') => (some (.error e, st'), log')
      | (some (.ok _, st'), log') =>
        let req := mkRequest st' .get (fullPath obj path) params' none
        let resp := env log'.reqs.length req
        let log'' := { log' with reqs := log'.reqs ++ [req] }
        match checkResponse resp with
        | .ok o => (some (.ok (.outcome o), st'), log'')
        | .error err =>
          if err.message == "Invalid API key or user key" then
            run fuel env st' log'' (.phandle err retries .get obj path params')
          else (some (.error (.api err), st'), log'')
    | .ppost obj path params retries data =>
      let params' := Params.updateEntry params "format" "json"
      match run fuel env st log (.pcheckAuth obj) with
      | (none, log') => (none, log')
      | (some (.error e, st'), log') => (some (.error e, st'), log')
      | (some (.ok _, st'), log') =>
        let req := mkRequest st' .post (fullPath obj path) params' data
        let resp := env log'.reqs.length req
        let log'' := { log' with reqs := log'.reqs ++ [req] }
        match checkResponse resp with
        | .ok o => (some (.ok (.outcome o), st'), log'')
        | .error err =>
          if err.message == "Invalid API key or user key" then
            run fuel env st' log'' (.phandle err retries .post obj path params')
          else (some (.error (.api err), st'), log'')
    | .phandle err retries method obj path params =>
      if retries != 0 then (some (.error (.api err), st), log)
      else
        let st' := { st with api_key := none }
        let log' := { log with keyWrites := log.keyWrites ++ [none] }
        match run fuel env st' log' .pauth with
        | (none, log'') => (none, log'')
        | (some (.error e, st''), log'') => (some (.error e, st''), log'')
        | (some (.ok (.bool true), st''), log'') =>
          match method with
          | .get => run fuel env st'' log'' (.pget obj path params 1)
          | .post => run fuel env st'' log'' (.ppost obj path params 1 none)
        | (some (.ok (.bool false), st''), log'') =>
          (some (.error (.api err), st''), log'')
        | (some (.ok _, _), log'') => (none, log'')

/-- Dispatch a public entry point by verb: `get` discards the body argument,
`post` forwards it (mirroring the two signatures in `client.py`). -/
def callProc : Verb → String → Option String → Params → Nat → Option Params → Proc
  | .get, obj, path, params, retries, _ => .pget obj path params retries
  | .post, obj, path, params, retries, data => .ppost obj path params retries data

/-- The body data carried by the outbound request of a `get`/`post` call:
`get` sends none, `post` sends the caller's `data`. -/
def callProcData : Verb → Option Params → Option Params
  | .get, _ => none
  | .post, d => d

/-- Whether the decoded body's `err` field is truthy, the condition under
which `_check_response` raises. -/
def Json.errTruthy (j : Json) : Bool :=
  match j.get "err" with
  | some v => v.pyTruthy
  | none => false

/-- The login request `authenticate` sends from state `st`: a POST to the
`login` object with no path, `format=json`, the credential triple as body,
and the headers `get`/`post` would attach in state `st`. -/
def loginReq (st : St) : Req :=
  mkRequest st .post (fullPath "login" none) [("format", "json")]
    (some [("email", st.email), ("password", st.password), ("user_key", st.user_key)])

/-- Whether a response is classified by `_check_response` as a
`PardotAPIError` whose message is the invalid-key message. -/
def isInvalidKeyResp (r : HttpResponse) : Bool :=
  match checkResponse r with
  | .error e => e.message == "Invalid API key or user key"
  | .ok _ => false

/-- The environments under which the retry protocol is well behaved: no
response to a request aimed at the login URL is ever classified as an
invalid-key error.  (A login response classified as an invalid-key error
makes `authenticate` recurse through `_handle_expired_api_key`.) -/
def LoginSafe (env : Env) : Prop :=
  ∀ i req, req.url = fullPath "login" none → isInvalidKeyResp (env i req) = false

/-- The key-lifecycle discipline over a sequence of writes to the key cell,
starting from current value `cur`: every write that installs a present key
happens while the current value is absent. -/
def goodW : Option JVal → List (Option JVal) → Bool
  | _, [] => true
  | cur, w :: ws => (!w.isSome || cur.isNone) && goodW w ws

/-- The `i`-th outbound request of a trace (a dummy GET when out of range). -/
def reqAt (log : TraceLog) (i : Nat) : Req :=
  log.reqs.getD i ⟨.get, "", [], none, []⟩

/-- One trace extends another: same requests and key writes, plus later ones. -/
def TraceLog.Extends (a b : TraceLog) : Prop :=
  ∃ t w, b = ⟨a.reqs ++ t, a.keyWrites ++ w⟩

/-! ### The attribute surface of `PardotAPI` and the wrapper delegations -/

/-- The methods class `PardotAPI` defines in `client.py` — the names a
`getattr`/attribute access on the client can resolve to. -/
def pardotAPIMethods : List String :=
  ["post", "get", "_handle_expired_api_key", "_full_path", "_check_response",
   "_check_auth", "authenticate"]

/-- Whether an attribute access on the core resolves (anything else raises
`AttributeError` in Python). -/
def PardotAPI.hasAttr (name : String) : Bool :=
  pardotAPIMethods.contains name

/-- The client attribute `Accounts._get` invokes: `self.client._get(...)`
(`pydot/objects/accounts.py`, line 46). -/
def Accounts.clientGetAttr : String := "_get"

/-- The client attribute `Accounts._post` invokes: `self.client._post(...)`
(`pydot/objects/accounts.py`, line 51). -/
def Accounts.clientPostAttr : String := "_post"

/-- The client attribute `Visits._get` invokes: `self.client.get(...)`
(`pypardot/objects/visits.py`, line 44). -/
def Visits.clientGetAttr : String := "get"

/-- The client attribute `Visits._post` invokes: `self.client.post(...)`
(`pypardot/objects/visits.py`, line 51). -/
def Visits.clientPostAttr : String := "post"

/-- Wrapper `Visits._get`: delegate to the core's `get` with the fixed object name
`visit`, defaulting `params` to an empty dict, and return the core's
classified outcome unchanged. -/
def Visits.wrapperGet (fuel : Nat) (env : Env) (st : St) (path : Option String)
    (params : Option Params) : Option (Except Exc PValue × St) × TraceLog :=
  run fuel env st ⟨[], []⟩ (.pget "visit" path (params.getD []) 0)

/-! ### Concrete fixtures for witnesses and counterexamples -/

/-- A client state holding a (truthy) API key. -/
def stKey : St := ⟨"e@x.com", "pw", "uk", some (.str "k0")⟩

/-- A client state with the key absent. -/
def stNoKey : St := ⟨"e@x.com", "pw", "uk", none⟩

/-- A JSON success response. -/
def respOkJson : HttpResponse :=
  ⟨some "application/json", [("result", .str "payload")], 200⟩

/-- A JSON error response carrying the invalid-key message. -/
def respInvKey : HttpResponse :=
  ⟨some "application/json",
   [("err", .str "1"), ("err_msg", .str "Invalid API key or user key")], 200⟩

/-- A successful login response issuing key `k2`. -/
def respLoginOk : HttpResponse :=
  ⟨some "application/json", [("api_key", .str "k2")], 200⟩

/-- A successful login response issuing key `k3`. -/
def respLoginOk3 : HttpResponse :=
  ⟨some "application/json", [("api_key", .str "k3")], 200⟩

/-- A successful-looking login response whose `api_key` field is JSON null:
the decoded Python dict maps the key to `None`. -/
def respLoginNull : HttpResponse :=
  ⟨some "application/json", [("api_key", .null)], 200⟩

/-- A failed login response (`Invalid login`). -/
def respLoginFail : HttpResponse :=
  ⟨some "application/json", [("err", .str "1"), ("err_msg", .str "Invalid login")], 200⟩

/-- A non-JSON response. -/
def respTxt : HttpResponse := ⟨some "text/html", [], 500⟩

/-- Environment: the first request hits an invalid key, the next (login)
succeeds, everything afterwards succeeds. -/
def envC2 : Env := fun i _ =>
  if i == 0 then respInvKey else if i == 1 then respLoginOk else respOkJson

/-- Environment: every response, including to login, is an invalid-key error. -/
def envBad : Env := fun _ _ => respInvKey

/-- Environment: every response is a JSON success. -/
def envOk : Env := fun _ _ => respOkJson

/-- Environment: every response is non-JSON. -/
def envTxt : Env := fun _ _ => respTxt

/-- Environment: every login attempt fails with `Invalid login`. -/
def envLoginFail : Env := fun _ _ => respLoginFail

/-- Environment: every login attempt answers JSON with `api_key` null. -/
def envLoginNull : Env := fun _ _ => respLoginNull

/-- Environment: every login attempt succeeds with key `k2`. -/
def envLoginOk : Env := fun _ _ => respLoginOk

/-- Environment: the first request hits an invalid key, every later response
is a failed (but JSON) login. -/
def envC1 : Env := fun i _ => if i == 0 then respInvKey else respLoginFail

/-- Environment: login requests (by URL) always succeed; every other request
is answered with an invalid-key error. -/
def envSafe : Env := fun _ req =>
  if req.url = fullPath "login" none then respLoginOk else respInvKey

/-- Environment: the first login issues `k2`, later logins issue `k3`. -/
def envTwoKeys : Env := fun i _ => if i == 0 then respLoginOk else respLoginOk3

/-- The trace of the C2 scenario: a POST with a body hits an invalid key,
re-authentication succeeds, and the request is replayed. -/
def c2Trace : TraceLog :=
  (run 12 envC2 stKey ⟨[], []⟩
    (callProc .post "prospect" none [] 0 (some [("firstname", "Joe")]))).2

/-! ## General lemmas about the interpreter -/

theorem TraceLog.Extends.refl (a : TraceLog) : a.Extends a :=
  ⟨[], [], by cases a; simp⟩

theorem TraceLog.Extends.trans {a b c : TraceLog} (h₁ : a.Extends b)
    (h₂ : b.Extends c) : a.Extends c := by
  obtain ⟨t₁, w₁, rfl⟩ := h₁
  obtain ⟨t₂, w₂, rfl⟩ := h₂
  exact ⟨t₁ ++ t₂, w₁ ++ w₂, by simp⟩

theorem TraceLog.extends_push_req (log : TraceLog) (req : Req) :
    log.Extends { log with reqs := log.reqs ++ [req] } :=
  ⟨[req], [], by cases log; simp⟩

theorem TraceLog.extends_push_write (log : TraceLog) (k : Option JVal) :
    log.Extends { log with keyWrites := log.keyWrites ++ [k] } :=
  ⟨[], [k], by cases log; simp⟩


/-- The trace is append-only: whatever procedure runs, the trace it returns
extends the trace it started from. -/
theorem run_log_extends : ∀ (fuel : Nat) (env : Env) (st : St) (log : TraceLog)
    (p : Proc), log.Extends (run fuel env st log p).2 := by
  intro fuel
  induction fuel with
  | zero => intro env st log p; exact TraceLog.Extends.refl log
  | succ n ih =>
    intro env st log p
    cases p <;> simp only [run]
    case pcheckAuth obj =>
      split
      · exact TraceLog.Extends.refl log
      · split
        · exact TraceLog.Extends.refl log
        · split <;> rename_i heq
          · have h := ih env st log .pauth; rw [heq] at h; exact h
          · have h := ih env st log .pauth; rw [heq] at h; exact h
          · have h := ih env st log .pauth; rw [heq] at h; exact h
    case pauth =>
      split <;> rename_i heq
      · have h := ih env st log (.ppost "login" none [] 0
          (some [("email", st.email), ("password", st.password), ("user_key", st.user_key)]))
        rw [heq] at h; exact h
      · have h := ih env st log (.ppost "login" none [] 0
          (some [("email", st.email), ("password", st.password), ("user_key", st.user_key)]))
        rw [heq] at h; exact h
      · have h := ih env st log (.ppost "login" none [] 0
          (some [("email", st.email), ("password", st.password), ("user_key", st.user_key)]))
        rw [heq] at h; exact h
      · rename_i v st' log'
        have h := ih env st log (.ppost "login" none [] 0
          (some [("email", st.email), ("password", st.password), ("user_key", st.user_key)]))
        rw [heq] at h
        split
        · exact h.trans (TraceLog.extends_push_write log' _)
        · exact h
        · exact h
    case pget obj path params retries =>
      split <;> rename_i heq
      · have h := ih env st log (.pcheckAuth obj); rw [heq] at h; exact h
      · have h := ih env st log (.pcheckAuth obj); rw [heq] at h; exact h
      · rename_i st' log'
        have h := ih env st log (.pcheckAuth obj); rw [heq] at h
        split
        · exact h.trans (TraceLog.extends_push_req log' _)
        · split
          · exact (h.trans (TraceLog.extends_push_req log' _)).trans (ih env st' _ _)
          · exact h.trans (TraceLog.extends_push_req log' _)
    case ppost obj path params retries data =>
      split <;> rename_i heq
      · have h := ih env st log (.pcheckAuth obj); rw [heq] at h; exact h
      · have h := ih env st log (.pcheckAuth obj); rw [heq] at h; exact h
      · rename_i st' log'
        have h := ih env st log (.pcheckAuth obj); rw [heq] at h
        split
        · exact h.trans (TraceLog.extends_push_req log' _)
        · split
          · exact (h.trans (TraceLog.extends_push_req log' _)).trans (ih env st' _ _)
          · exact h.trans (TraceLog.extends_push_req log' _)
    case phandle err retries method obj path params =>
      split
      · exact TraceLog.Extends.refl log
      · have hw := TraceLog.extends_push_write log (none : Option JVal)
        split <;> rename_i heq
        · have h := ih env { st with api_key := none }
            { log with keyWrites := log.keyWrites ++ [none] } .pauth
          rw [heq] at h; exact hw.trans h
        · have h := ih env { st with api_key := none }
            { log with keyWrites := log.keyWrites ++ [none] } .pauth
          rw [heq] at h; exact hw.trans h
        · rename_i st'' log''
          have h := ih env { st with api_key := none }
            { log with keyWrites := log.keyWrites ++ [none] } .pauth
          rw [heq] at h
          split
          · exact (hw.trans h).trans (ih env st'' log'' _)
          · exact (hw.trans h).trans (ih env st'' log'' _)
        · have h := ih env { st with api_key := none }
            { log with keyWrites := log.keyWrites ++ [none] } .pauth
          rw [heq] at h; exact hw.trans h
        · have h := ih env { st with api_key := none }
            { log with keyWrites := log.keyWrites ++ [none] } .pauth
          rw [heq] at h; exact hw.trans h

/-! ### One-step unfolding equations for the interpreter -/

/-- One step of `run` on `_check_auth`. -/
theorem run_pcheckAuth_eq (n : Nat) (env : Env) (st : St) (log : TraceLog)
    (obj : String) :
    run (n + 1) env st log (.pcheckAuth obj) =
      (if obj == "login" then (some (.ok .unit, st), log)
       else
         match st.api_key with
         | some _ => (some (.ok .unit, st), log)
         | none =>
           match run n env st log .pauth with
           | (none, log') => (none, log')
           | (some (.error e, st'), log') => (some (.error e, st'), log')
           | (some (.ok _, st'), log') => (some (.ok .unit, st'), log')) := rfl

/-- One step of `run` on `authenticate`. -/
theorem run_pauth_eq (n : Nat) (env : Env) (st : St) (log : TraceLog) :
    run (n + 1) env st log .pauth =
      (match run n env st log (.ppost "login" none [] 0
          (some [("email", st.email), ("password", st.password),
                 ("user_key", st.user_key)])) with
       | (none, log') => (none, log')
       | (some (.error (.api _), st'), log') => (some (.ok (.bool false), st'), log')
       | (some (.error .attrError, st'), log') => (some (.error .attrError, st'), log')
       | (some (.ok v, st'), log') =>
         match v with
         | .outcome (.json j) =>
           (some (.ok (.bool (j.pyGet "api_key").isSome),
                  { st' with api_key := j.pyGet "api_key" }),
            { log' with keyWrites := log'.keyWrites ++ [j.pyGet "api_key"] })
         | .outcome (.status _) => (some (.error .attrError, st'), log')
         | _ => (none, log')) := rfl

/-- One step of `run` on `get`. -/
theorem run_pget_eq (n : Nat) (env : Env) (st : St) (log : TraceLog)
    (obj : String) (path : Option String) (params : Params) (retries : Nat) :
    run (n + 1) env st log (.pget obj path params retries) =
      (match run n env st log (.pcheckAuth obj) with
       | (none, log') => (none, log')
       | (some (.error e, st'), log') => (some (.error e, st'), log')
       | (some (.ok _, st'), log') =>
         match checkResponse (env log'.reqs.length
             (mkRequest st' .get (fullPath obj path)
               (Params.updateEntry params "format" "json") none)) with
         | .ok o => (some (.ok (.outcome o), st'),
             { log' with reqs := log'.reqs ++
                 [mkRequest st' .get (fullPath obj path)
                   (Params.updateEntry params "format" "json") none] })
         | .error err =>
           if err.message == "Invalid API key or user key" then
             run n env st'
               { log' with reqs := log'.reqs ++
                   [mkRequest st' .get (fullPath obj path)
                     (Params.updateEntry params "format" "json") none] }
               (.phandle err retries .get obj path
                 (Params.updateEntry params "format" "json"))
           else (some (.error (.api err), st'),
             { log' with reqs := log'.reqs ++
                 [mkRequest st' .get (fullPath obj path)
                   (Params.updateEntry params "format" "json") none] })) := rfl

/-- One step of `run` on `post`. -/
theorem run_ppost_eq (n : Nat) (env : Env) (st : St) (log : TraceLog)
    (obj : String) (path : Option String) (params : Params) (retries : Nat)
    (data : Option Params) :
    run (n + 1) env st log (.ppost obj path params retries data) =
      (match run n env st log (.pcheckAuth obj) with
       | (none, log') => (none, log')
       | (some (.error e, st'), log') => (some (.error e, st'), log')
       | (some (.ok _, st'), log') =>
         match checkResponse (env log'.reqs.length
             (mkRequest st' .post (fullPath obj path)
               (Params.updateEntry params "format" "json") data)) with
         | .ok o => (some (.ok (.outcome o), st'),
             { log' with reqs := log'.reqs ++
                 [mkRequest st' .post (fullPath obj path)
                   (Params.updateEntry params "format" "json") data] })
         | .error err =>
           if err.message == "Invalid API key or user key" then
             run n env st'
               { log' with reqs := log'.reqs ++
                   [mkRequest st' .post (fullPath obj path)
                     (Params.updateEntry params "format" "json") data] }
               (.phandle err retries .post obj path
                 (Params.updateEntry params "format" "json"))
           else (some (.error (.api err), st'),
             { log' with reqs := log'.reqs ++
                 [mkRequest st' .post (fullPath obj path)
                   (Params.updateEntry params "format" "json") data] })) := rfl

/-- One step of `run` on `_handle_expired_api_key`. -/
theorem run_phandle_eq (n : Nat) (env : Env) (st : St) (log : TraceLog)
    (err : PardotAPIError) (retries : Nat) (method : Verb) (obj : String)
    (path : Option String) (params : Params) :
    run (n + 1) env st log (.phandle err retries method obj path params) =
      (if retries != 0 then (some (.error (.api err), st), log)
       else
         match run n env { st with api_key := none }
             { log with keyWrites := log.keyWrites ++ [none] } .pauth with
         | (none, log'') => (none, log'')
         | (some (.error e, st''), log'') => (some (.error e, st''), log'')
         | (some (.ok (.bool true), st''), log'') =>
           (match method with
            | .get => run n env st'' log'' (.pget obj path params 1)
            | .post => run n env st'' log'' (.ppost obj path params 1 none))
         | (some (.ok (.bool false), st''), log'') =>
           (some (.error (.api err), st''), log'')
         | (some (.ok _, _), log'') => (none, log'')) := rfl

/-- Method `_check_auth` is a no-op (same state, same trace) whenever a key is
present, whatever the object name. -/
theorem checkAuth_present (fuel : Nat) (env : Env) (st : St) (log : TraceLog)
    (obj : String) (h : st.api_key.isSome = true) :
    run (fuel + 1) env st log (.pcheckAuth obj) = (some (.ok .unit, st), log) := by
  obtain ⟨k, hk⟩ := Option.isSome_iff_exists.mp h
  rw [run_pcheckAuth_eq]
  split
  · rfl
  · rw [hk]

/-- When a key is present, a `get`/`post` call sends as its first outbound
request exactly the request built from the entry state: the caller's params
updated with `format=json`, the URL from `_full_path`, and the body data for
POST only. -/
theorem run_first_request (fuel : Nat) (env : Env) (st : St) (obj : String)
    (path : Option String) (params : Params) (data : Option Params) (v : Verb)
    (retries : Nat) (h : st.api_key.isSome = true) :
    ∃ tail, (run (fuel + 2) env st ⟨[], []⟩ (callProc v obj path params retries data)).2.reqs
      = mkRequest st v (fullPath obj path) (Params.updateEntry params "format" "json")
          (callProcData v data) :: tail := by
  show ∃ tail, (run ((fuel + 1) + 1) env st ⟨[], []⟩ _).2.reqs = _
  cases v <;> simp only [callProc, callProcData]
  case get =>
    rw [run_pget_eq, checkAuth_present fuel env st ⟨[], []⟩ obj h]
    simp only [List.length_nil, List.nil_append]
    cases hcr : checkResponse (env 0
        (mkRequest st .get (fullPath obj path)
          (Params.updateEntry params "format" "json") none)) with
    | ok o => exact ⟨[], by simp [hcr]⟩
    | error e =>
      simp only [hcr]
      split
      · obtain ⟨t, w, hext⟩ := run_log_extends (fuel + 1) env st
          ⟨[mkRequest st .get (fullPath obj path)
            (Params.updateEntry params "format" "json") none], []⟩
          (.phandle e retries .get obj path (Params.updateEntry params "format" "json"))
        exact ⟨t, by rw [hext]; simp⟩
      · exact ⟨[], by simp⟩
  case post =>
    rw [run_ppost_eq, checkAuth_present fuel env st ⟨[], []⟩ obj h]
    simp only [List.length_nil, List.nil_append]
    cases hcr : checkResponse (env 0
        (mkRequest st .post (fullPath obj path)
          (Params.updateEntry params "format" "json") data)) with
    | ok o => exact ⟨[], by simp [hcr]⟩
    | error e =>
      simp only [hcr]
      split
      · obtain ⟨t, w, hext⟩ := run_log_extends (fuel + 1) env st
          ⟨[mkRequest st .post (fullPath obj path)
            (Params.updateEntry params "format" "json") data], []⟩
          (.phandle e retries .post obj path (Params.updateEntry params "format" "json"))
        exact ⟨t, by rw [hext]; simp⟩
      · exact ⟨[], by simp⟩

/-! ## Claim C4: response classification -/

/-- C4: for every HTTP response, when the content type indicates JSON
(`application/json`), the body is decoded and a `PardotAPIError` carrying the
decoded body is raised exactly when the `err` field is truthy, otherwise the
decoded body is returned; when the content type does not indicate JSON, the
raw status code is returned and no API error is ever raised, whatever the
status code. -/
theorem response_classification (r : HttpResponse) :
    (r.contentType = some "application/json" →
      (Json.errTruthy r.body = true → checkResponse r = .error ⟨r.body⟩) ∧
      (Json.errTruthy r.body = false → checkResponse r = .ok (.json r.body))) ∧
    (r.contentType ≠ some "application/json" →
      checkResponse r = .ok (.status r.status_code)) := by
  refine ⟨fun hct => ⟨fun htr => ?_, fun hfr => ?_⟩, fun hne => ?_⟩
  · simp only [checkResponse, hct, beq_self_eq_true, if_true]
    simp only [Json.errTruthy] at htr
    cases hg : r.body.get "err" with
    | none => rw [hg] at htr; exact absurd htr (by simp)
    | some v =>
      rw [hg] at htr
      simp only [] at htr
      simp [hg, htr]
  · simp only [checkResponse, hct, beq_self_eq_true, if_true]
    simp only [Json.errTruthy] at hfr
    cases hg : r.body.get "err" with
    | none => simp [hg]
    | some v =>
      rw [hg] at hfr
      simp only [] at hfr
      simp [hg, hfr]
  · simp only [checkResponse]
    rw [if_neg]
    simp only [beq_iff_eq]
    exact hne

/-- Witness for C4: a JSON error body raises, a JSON success body is
returned decoded, and a non-JSON response returns its raw 500 status. -/
theorem response_classification_witness :
    checkResponse respInvKey = .error ⟨respInvKey.body⟩ ∧
    checkResponse respOkJson = .ok (.json respOkJson.body) ∧
    checkResponse respTxt = .ok (.status 500) :=
  ⟨((response_classification respInvKey).1 rfl).1 (by decide),
   ((response_classification respOkJson).1 rfl).2 (by decide),
   (response_classification respTxt).2 (by decide)⟩

/-! ## Claim C9: the wrapper delegation surface -/

/-- C9: the claim that every resource wrapper reaches the core through an
operation the core actually exposes fails for `Accounts`: its `_get`/`_post`
delegate to `self.client._get`/`self.client._post`, attributes `PardotAPI`
does not define (an `AttributeError` at run time), while `Visits` delegates
to the genuine entry points `get`/`post` and returns the core's classified
outcome unchanged. -/
theorem wrapper_delegation_surface :
    (PardotAPI.hasAttr Accounts.clientGetAttr = false ∧
     PardotAPI.hasAttr Accounts.clientPostAttr = false) ∧
    (PardotAPI.hasAttr Visits.clientGetAttr = true ∧
     PardotAPI.hasAttr Visits.clientPostAttr = true) ∧
    (∀ (fuel : Nat) (env : Env) (st : St) (path : Option String)
       (params : Option Params),
      Visits.wrapperGet fuel env st path params
        = run fuel env st ⟨[], []⟩ (callProc .get "visit" path (params.getD []) 0 none)) :=
  ⟨⟨by decide, by decide⟩, ⟨by decide, by decide⟩,
   fun _ _ _ _ _ => rfl⟩

/-! ## Claim C10: `format=json` is inserted into the caller's params -/

/-- Updating a params dict at `k` makes `k` map to the new value. -/
theorem updateEntry_lookup_self (ps : Params) (k v : String) :
    (Params.updateEntry ps k v).lookupVal k = some v := by
  induction ps with
  | nil => simp [Params.updateEntry, Params.lookupVal]
  | cons hd t ih =>
    obtain ⟨k', v'⟩ := hd
    by_cases hk : (k' == k) = true
    · simp [Params.updateEntry, hk, Params.lookupVal]
    · simp only [Params.updateEntry, hk, if_false, Bool.false_eq_true]
      simp only [Params.lookupVal, hk, if_false, Bool.false_eq_true]
      exact ih

/-- Updating a params dict at `k` leaves every other key unchanged. -/
theorem updateEntry_lookup_other (ps : Params) (k v k₀ : String) (h : k₀ ≠ k) :
    (Params.updateEntry ps k v).lookupVal k₀ = ps.lookupVal k₀ := by
  have hkk : (k == k₀) = false := by simp [Ne.symm h]
  induction ps with
  | nil => simp [Params.updateEntry, Params.lookupVal, hkk]
  | cons hd t ih =>
    obtain ⟨k', v'⟩ := hd
    by_cases hk : (k' == k) = true
    · have hk0 : (k' == k₀) = false := by
        simp only [beq_iff_eq] at hk
        subst hk
        exact hkk
      simp [Params.updateEntry, hk, Params.lookupVal, hkk, hk0]
    · simp only [Params.updateEntry, hk, if_false, Bool.false_eq_true]
      by_cases hk0 : (k' == k₀) = true
      · simp [Params.lookupVal, hk0]
      · simp only [Params.lookupVal, hk0, if_false, Bool.false_eq_true]
        exact ih

/-- C10: every `get`/`post` call updates the caller's params mapping with the
entry `format ↦ json` (overwriting any caller-supplied `format` value and
touching no other key), and the outbound request carries exactly that updated
mapping.  The caller's dictionary is modelled by value: the mapping the core
holds (and mutates in place, in Python) after the call maps `format` to
`json`. -/
theorem params_format_json_inserted (params : Params) :
    (Params.updateEntry params "format" "json").lookupVal "format" = some "json" ∧
    (∀ k, k ≠ "format" →
      (Params.updateEntry params "format" "json").lookupVal k = params.lookupVal k) ∧
    (∀ (fuel : Nat) (env : Env) (st : St) (obj : String) (path : Option String)
       (data : Option Params) (v : Verb),
      st.api_key.isSome = true →
      ∃ tail, (run (fuel + 2) env st ⟨[], []⟩ (callProc v obj path params 0 data)).2.reqs
        = mkRequest st v (fullPath obj path)
            (Params.updateEntry params "format" "json") (callProcData v data) :: tail) :=
  ⟨updateEntry_lookup_self params "format" "json",
   fun k hk => updateEntry_lookup_other params "format" "json" k hk,
   fun fuel env st obj path data v h =>
     run_first_request fuel env st obj path params data v 0 h⟩

/-- Witness for C10: a caller-supplied dict with `format=xml` and `id=5`
ends up with `format=json`, `id` untouched, and the first outbound request
carries the updated dict. -/
theorem params_format_json_inserted_witness :
    (Params.updateEntry [("format", "xml"), ("id", "5")] "format" "json").lookupVal "format"
      = some "json" ∧
    (Params.updateEntry [("format", "xml"), ("id", "5")] "format" "json").lookupVal "id"
      = some "5" ∧
    ∃ tail, (run 3 envOk stKey ⟨[], []⟩
        (callProc .get "prospect" none [("format", "xml"), ("id", "5")] 0 none)).2.reqs
      = mkRequest stKey .get (fullPath "prospect" none)
          (Params.updateEntry [("format", "xml"), ("id", "5")] "format" "json")
          (callProcData .get none) :: tail :=
  ⟨(params_format_json_inserted [("format", "xml"), ("id", "5")]).1,
   (params_format_json_inserted [("format", "xml"), ("id", "5")]).2.1 "id" (by decide),
   (params_format_json_inserted [("format", "xml"), ("id", "5")]).2.2 1 envOk stKey
     "prospect" none none .get rfl⟩

/-! ## Claim C7: the Authorization header -/

/-- Counterexample to C7 as stated: the request a key-present `get` sends
carries the Authorization value `Pardot api_key=k0, user_key=uk` — the scheme
word `Pardot` and a space precede the claimed exact value
`api_key=<key>, user_key=<user_key>`, so the two differ. -/
theorem auth_header_value_counterexample :
    (run 3 envOk stKey ⟨[], []⟩ (callProc .get "prospect" none [] 0 none)).2.reqs
      = [mkRequest stKey .get (fullPath "prospect" none) [("format", "json")] none] ∧
    (mkRequest stKey .get (fullPath "prospect" none) [("format", "json")] none).headers
      = [("Authorization", "Pardot api_key=k0, user_key=uk")] ∧
    "Pardot api_key=k0, user_key=uk" ≠ "api_key=k0, user_key=uk" :=
  ⟨by decide, by decide, by decide⟩

/-- C7 (amended): while a key is present (and truthy), every outbound request
carries the Authorization header with value exactly
`Pardot api_key=<key>, user_key=<user_key>`; when the key is absent the
header is omitted entirely; and a key-present `get`/`post` call sends the
request so built. -/
theorem auth_header_amended (st : St) :
    (∀ k, st.api_key = some k → k.pyTruthy = true →
      ∀ (v : Verb) (url : String) (params : Params) (data : Option Params),
      (mkRequest st v url params data).headers
        = [("Authorization",
            "Pardot api_key=" ++ k.pyStr ++ ", user_key=" ++ st.user_key)]) ∧
    (st.api_key = none →
      ∀ (v : Verb) (url : String) (params : Params) (data : Option Params),
      (mkRequest st v url params data).headers = []) ∧
    (∀ (fuel : Nat) (env : Env) (obj : String) (path : Option String)
       (params : Params) (data : Option Params) (v : Verb) (retries : Nat),
      st.api_key.isSome = true →
      ∃ tail, (run (fuel + 2) env st ⟨[], []⟩ (callProc v obj path params retries data)).2.reqs
        = mkRequest st v (fullPath obj path)
            (Params.updateEntry params "format" "json") (callProcData v data) :: tail) := by
  refine ⟨fun k hk htr v url params data => ?_, fun hn v url params data => ?_,
    fun fuel env obj path params data v retries h =>
      run_first_request fuel env st obj path params data v retries h⟩
  · simp [mkRequest, St.keyTruthy, hk, htr, authHeaderValue]
  · simp [mkRequest, St.keyTruthy, hn]

/-- Witness for C7 (amended), at a key-present and a key-absent state. -/
theorem auth_header_amended_witness :
    (mkRequest stKey .get "u" [] none).headers
      = [("Authorization",
          "Pardot api_key=" ++ JVal.pyStr (.str "k0") ++ ", user_key=" ++ stKey.user_key)] ∧
    (mkRequest stNoKey .get "u" [] none).headers = [] ∧
    ∃ tail, (run 3 envOk stKey ⟨[], []⟩ (callProc .get "prospect" none [] 0 none)).2.reqs
      = mkRequest stKey .get (fullPath "prospect" none)
          (Params.updateEntry [] "format" "json") (callProcData .get none) :: tail :=
  ⟨(auth_header_amended stKey).1 (.str "k0") rfl rfl .get "u" [] none,
   (auth_header_amended stNoKey).2.1 rfl .get "u" [] none,
   (auth_header_amended stKey).2.2 1 envOk "prospect" none [] none .get 0 rfl⟩

/-! ## Claim C2: the replayed request -/

/-- C2 fails on the code for POST: in the scenario where a POST carrying a
body hits an invalid-key error and re-authentication succeeds, the replay
(third outbound request) matches the original in verb, URL and params, but
its body data is `None` — `_handle_expired_api_key` is never given the
original `data`, so the replayed request is not identical. -/
theorem replay_drops_post_body :
    c2Trace.reqs.length = 3 ∧
    (reqAt c2Trace 0).verb = (reqAt c2Trace 2).verb ∧
    (reqAt c2Trace 0).url = (reqAt c2Trace 2).url ∧
    (reqAt c2Trace 0).params = (reqAt c2Trace 2).params ∧
    (reqAt c2Trace 0).data = some [("firstname", "Joe")] ∧
    (reqAt c2Trace 2).data = none :=
  ⟨by decide, by decide, by decide, by decide, by decide, by decide⟩

/-! ## Claim C1: invalid-key error with failed re-authentication -/

/-- C1: when a `get`/`post` call with `retries = 0` receives a
`PardotAPIError` whose message is `Invalid API key or user key`, the core
clears the key to absent and calls `authenticate()` — the continuation is
exactly a run of `authenticate` from the cleared state — and when that
authentication returns `False`, the original error (same carried body)
propagates to the caller unchanged.  The `_check_auth` preamble is
hypothesised by its outcome, so the statement covers calls entered with the
key absent or present alike. -/
theorem invalid_key_auth_failure_propagates (fuel : Nat) (env : Env)
    (st st₁ : St) (log₁ : TraceLog) (u : PValue) (v : Verb) (obj : String)
    (path : Option String) (params : Params) (data : Option Params)
    (err0 : PardotAPIError) (st2 : St) (log2 : TraceLog)
    (hca : run (fuel + 1) env st ⟨[], []⟩ (.pcheckAuth obj)
      = (some (.ok u, st₁), log₁))
    (hresp : checkResponse (env log₁.reqs.length (mkRequest st₁ v (fullPath obj path)
        (Params.updateEntry params "format" "json") (callProcData v data))) = .error err0)
    (hmsg : err0.message = "Invalid API key or user key")
    (hauth : run fuel env { st₁ with api_key := none }
        ⟨log₁.reqs ++ [mkRequest st₁ v (fullPath obj path)
            (Params.updateEntry params "format" "json") (callProcData v data)],
         log₁.keyWrites ++ [none]⟩ .pauth
      = (some (.ok (.bool false), st2), log2)) :
    run (fuel + 2) env st ⟨[], []⟩ (callProc v obj path params 0 data)
      = (some (.error (.api err0), st2), log2) := by
  show run ((fuel + 1) + 1) env st ⟨[], []⟩ _ = _
  cases v <;> simp only [callProc, callProcData] at hresp hauth ⊢
  case get =>
    rw [run_pget_eq, hca]
    simp only []
    rw [hresp]
    simp only [hmsg, beq_self_eq_true, if_true]
    rw [run_phandle_eq]
    simp only [bne_self_eq_false, Bool.false_eq_true, if_false]
    rw [hauth]
  case post =>
    rw [run_ppost_eq, hca]
    simp only []
    rw [hresp]
    simp only [hmsg, beq_self_eq_true, if_true]
    rw [run_phandle_eq]
    simp only [bne_self_eq_false, Bool.false_eq_true, if_false]
    rw [hauth]

/-- Witness for C1: a key-present GET hits the invalid-key error, the login
replay fails (`Invalid login`), and the original error body propagates with
the key left absent. -/
theorem invalid_key_auth_failure_propagates_witness :
    run 8 envC1 stKey ⟨[], []⟩ (callProc .get "prospect" none [] 0 none)
      = (some (.error (.api ⟨[("err", .str "1"),
            ("err_msg", .str "Invalid API key or user key")]⟩),
          { stKey with api_key := none }),
         ⟨[mkRequest stKey .get (fullPath "prospect" none)
             (Params.updateEntry [] "format" "json") (callProcData .get none),
           loginReq { stKey with api_key := none }], [none]⟩) :=
  invalid_key_auth_failure_propagates 6 envC1 stKey stKey ⟨[], []⟩ .unit .get
    "prospect" none [] none
    ⟨[("err", .str "1"), ("err_msg", .str "Invalid API key or user key")]⟩
    { stKey with api_key := none }
    ⟨[mkRequest stKey .get (fullPath "prospect" none)
        (Params.updateEntry [] "format" "json") (callProcData .get none),
      loginReq { stKey with api_key := none }], [none]⟩
    rfl rfl rfl rfl

/-! ## Claim C5: `_check_auth` -/

/-- C5: `_check_auth` is a no-op when the object name is the login operation
or when a key is already present; when the key is absent and the object is
not `login`, its run is exactly one run of `authenticate` (whose boolean is
discarded) before the request is sent. -/
theorem check_auth_spec (fuel : Nat) (env : Env) (st : St) (log : TraceLog)
    (obj : String) :
    (obj = "login" → run (fuel + 1) env st log (.pcheckAuth obj)
      = (some (.ok .unit, st), log)) ∧
    (st.api_key.isSome = true → run (fuel + 1) env st log (.pcheckAuth obj)
      = (some (.ok .unit, st), log)) ∧
    (obj ≠ "login" → st.api_key = none →
      ∀ (b : Bool) (st' : St) (log' : TraceLog),
      run fuel env st log .pauth = (some (.ok (.bool b), st'), log') →
      run (fuel + 1) env st log (.pcheckAuth obj) = (some (.ok .unit, st'), log')) := by
  refine ⟨fun hobj => ?_, fun hk => checkAuth_present fuel env st log obj hk,
    fun hobj hn b st' log' hauth => ?_⟩
  · rw [run_pcheckAuth_eq]
    simp [hobj]
  · rw [run_pcheckAuth_eq]
    have hob : (obj == "login") = false := by simp [hobj]
    rw [if_neg (by simp [hob]), hn, hauth]

/-- Witness for C5: the login no-op, the key-present no-op, and the absent-key
case triggering exactly one (failing) authentication. -/
theorem check_auth_spec_witness :
    run 7 envLoginFail stNoKey ⟨[], []⟩ (.pcheckAuth "login")
      = (some (.ok .unit, stNoKey), ⟨[], []⟩) ∧
    run 7 envLoginFail stKey ⟨[], []⟩ (.pcheckAuth "prospect")
      = (some (.ok .unit, stKey), ⟨[], []⟩) ∧
    run 7 envLoginFail stNoKey ⟨[], []⟩ (.pcheckAuth "prospect")
      = (some (.ok .unit, stNoKey), ⟨[loginReq stNoKey], []⟩) :=
  ⟨(check_auth_spec 6 envLoginFail stNoKey ⟨[], []⟩ "login").1 rfl,
   (check_auth_spec 6 envLoginFail stKey ⟨[], []⟩ "prospect").2.1 rfl,
   (check_auth_spec 6 envLoginFail stNoKey ⟨[], []⟩ "prospect").2.2 (by decide) rfl
     false stNoKey ⟨[loginReq stNoKey], []⟩ rfl⟩

/-! ## Claim C6: `authenticate` -/

/-- The request `authenticate` builds is the login request. -/
theorem mkRequest_login (st : St) :
    mkRequest st .post (fullPath "login" none) (Params.updateEntry [] "format" "json")
      (some [("email", st.email), ("password", st.password), ("user_key", st.user_key)])
      = loginReq st := rfl

/-- Counterexample to C6 as stated: `authenticate()` does not always return a
boolean — when the login response carries no JSON (`text/html` here), the
outcome is the raw status code, `auth.get('api_key')` is an attribute access
on an `int`, and an `AttributeError` escapes instead of `False`. -/
theorem authenticate_nonjson_attr_error :
    run 5 envTxt stNoKey ⟨[], []⟩ .pauth
      = (some (.error .attrError, stNoKey), ⟨[loginReq stNoKey], []⟩) := rfl

/-- C6 (amended): invoked with the key absent, whenever the login response is
JSON, `authenticate` stores the Python value of the response's `api_key`
field in the key cell and returns true exactly when that value is not `None`
— false, key still absent, when the field is missing or its value is JSON
null (both decode to `None`); whenever the login response is an API error
other than the invalid-key error, it returns false and the key state remains
absent.  (A non-JSON login response instead raises an attribute error, and an
invalid-key login error recurses into the retry handler.) -/
theorem authenticate_boolean_amended (fuel : Nat) (env : Env) (st : St)
    (_hn : st.api_key = none) :
    (∀ j, checkResponse (env 0 (loginReq st)) = .ok (.json j) →
      run (fuel + 3) env st ⟨[], []⟩ .pauth
        = (some (.ok (.bool (j.pyGet "api_key").isSome),
            { st with api_key := j.pyGet "api_key" }),
           ⟨[loginReq st], [j.pyGet "api_key"]⟩)) ∧
    (∀ err, checkResponse (env 0 (loginReq st)) = .error err →
      err.message ≠ "Invalid API key or user key" →
      run (fuel + 3) env st ⟨[], []⟩ .pauth
        = (some (.ok (.bool false), st), ⟨[loginReq st], []⟩)) := by
  constructor
  · intro j hresp
    have hpost : run (fuel + 2) env st ⟨[], []⟩ (.ppost "login" none [] 0
        (some [("email", st.email), ("password", st.password), ("user_key", st.user_key)]))
        = (some (.ok (.outcome (.json j)), st), ⟨[loginReq st], []⟩) := by
      show run ((fuel + 1) + 1) env st ⟨[], []⟩ _ = _
      rw [run_ppost_eq, run_pcheckAuth_eq]
      simp only [beq_self_eq_true, if_true, List.length_nil, mkRequest_login, hresp,
        List.nil_append]
    show run ((fuel + 2) + 1) env st ⟨[], []⟩ .pauth = _
    rw [run_pauth_eq, hpost]
    simp
  · intro err hresp hne
    have hm : (err.message == "Invalid API key or user key") = false := by
      simp [hne]
    have hpost : run (fuel + 2) env st ⟨[], []⟩ (.ppost "login" none [] 0
        (some [("email", st.email), ("password", st.password), ("user_key", st.user_key)]))
        = (some (.error (.api err), st), ⟨[loginReq st], []⟩) := by
      show run ((fuel + 1) + 1) env st ⟨[], []⟩ _ = _
      rw [run_ppost_eq, run_pcheckAuth_eq]
      simp only [beq_self_eq_true, if_true, List.length_nil, mkRequest_login, hresp,
        List.nil_append, hm, Bool.false_eq_true, if_false]
    show run ((fuel + 2) + 1) env st ⟨[], []⟩ .pauth = _
    rw [run_pauth_eq, hpost]

/-- Witness for C6 (amended): a successful JSON login stores the key and
returns true; a JSON login response whose `api_key` is null returns false
with the key absent (a write of `None` is performed); a JSON `Invalid login`
error returns false with the key absent and no write. -/
theorem authenticate_boolean_amended_witness :
    run 6 envLoginOk stNoKey ⟨[], []⟩ .pauth
      = (some (.ok (.bool true), { stNoKey with api_key := some (.str "k2") }),
         ⟨[loginReq stNoKey], [some (.str "k2")]⟩) ∧
    run 6 envLoginNull stNoKey ⟨[], []⟩ .pauth
      = (some (.ok (.bool false), stNoKey), ⟨[loginReq stNoKey], [none]⟩) ∧
    run 6 envLoginFail stNoKey ⟨[], []⟩ .pauth
      = (some (.ok (.bool false), stNoKey), ⟨[loginReq stNoKey], []⟩) :=
  ⟨(authenticate_boolean_amended 3 envLoginOk stNoKey rfl).1
      [("api_key", JVal.str "k2")] rfl,
   (authenticate_boolean_amended 3 envLoginNull stNoKey rfl).1
      [("api_key", JVal.null)] rfl,
   (authenticate_boolean_amended 3 envLoginFail stNoKey rfl).2
      ⟨[("err", JVal.str "1"), ("err_msg", JVal.str "Invalid login")]⟩ rfl (by decide)⟩

/-! ## Claim C3: the retry protocol -/

/-- Under a `LoginSafe` environment, one run of `authenticate` sends exactly
one outbound request (the login request), terminates, and either fails
leaving state and writes untouched, or performs exactly one key write from a
JSON login body. -/
theorem auth_step (env : Env) (hs : LoginSafe env) (f : Nat) (st : St)
    (log : TraceLog) :
    ∃ outc st' ws,
      run (f + 3) env st log .pauth
        = (some (outc, st'), ⟨log.reqs ++ [loginReq st], log.keyWrites ++ ws⟩) ∧
      ((∃ e, outc = .error e ∧ ws = [] ∧ st' = st) ∨
       (outc = .ok (.bool false) ∧ ws = [] ∧ st' = st) ∨
       (∃ k, outc = .ok (.bool k.isSome) ∧ ws = [k] ∧
         st' = { st with api_key := k })) := by
  cases hcr : checkResponse (env log.reqs.length (loginReq st)) with
  | ok o =>
    have hpost : run (f + 2) env st log (.ppost "login" none [] 0
        (some [("email", st.email), ("password", st.password), ("user_key", st.user_key)]))
        = (some (.ok (.outcome o), st), { log with reqs := log.reqs ++ [loginReq st] }) := by
      have h0 := run_ppost_eq (f + 1) env st log "login" none [] 0
        (some [("email", st.email), ("password", st.password), ("user_key", st.user_key)])
      rw [h0, run_pcheckAuth_eq]
      simp only [beq_self_eq_true, if_true, mkRequest_login, hcr]
    cases o with
    | json j =>
      refine ⟨.ok (.bool (j.pyGet "api_key").isSome), { st with api_key := j.pyGet "api_key" },
        [j.pyGet "api_key"], ?_, .inr (.inr ⟨j.pyGet "api_key", rfl, rfl, rfl⟩)⟩
      have h1 := run_pauth_eq (f + 2) env st log
      rw [show f + 3 = (f + 2) + 1 from rfl, h1, hpost]
    | status n =>
      refine ⟨.error .attrError, st, [], ?_, .inl ⟨.attrError, rfl, rfl, rfl⟩⟩
      have h1 := run_pauth_eq (f + 2) env st log
      rw [show f + 3 = (f + 2) + 1 from rfl, h1, hpost]
      simp
  | error err =>
    have hm : (err.message == "Invalid API key or user key") = false := by
      have hsafe := hs log.reqs.length (loginReq st) rfl
      simp only [isInvalidKeyResp, hcr] at hsafe
      exact hsafe
    have hpost : run (f + 2) env st log (.ppost "login" none [] 0
        (some [("email", st.email), ("password", st.password), ("user_key", st.user_key)]))
        = (some (.error (.api err), st), { log with reqs := log.reqs ++ [loginReq st] }) := by
      have h0 := run_ppost_eq (f + 1) env st log "login" none [] 0
        (some [("email", st.email), ("password", st.password), ("user_key", st.user_key)])
      rw [h0, run_pcheckAuth_eq]
      simp only [beq_self_eq_true, if_true, mkRequest_login, hcr, hm,
        Bool.false_eq_true, if_false]
    refine ⟨.ok (.bool false), st, [], ?_, .inr (.inl ⟨rfl, rfl, rfl⟩)⟩
    have h1 := run_pauth_eq (f + 2) env st log
    rw [show f + 3 = (f + 2) + 1 from rfl, h1, hpost]
    simp

/-- Under a `LoginSafe` environment, one run of `_check_auth` terminates,
sends at most one outbound request, returns either unit or a propagated
exception, and is the identity (no requests, no writes) when a key is
present. -/
theorem checkAuth_step (env : Env) (hs : LoginSafe env) (f : Nat) (st : St)
    (log : TraceLog) (obj : String) :
    ∃ outc st' reqs1 ws,
      run (f + 4) env st log (.pcheckAuth obj)
        = (some (outc, st'), ⟨log.reqs ++ reqs1, log.keyWrites ++ ws⟩) ∧
      reqs1.length ≤ 1 ∧
      (outc = .ok .unit ∨ ∃ e, outc = .error e) ∧
      (st.api_key.isSome = true →
        outc = .ok .unit ∧ st' = st ∧ reqs1 = [] ∧ ws = []) := by
  have h0 := run_pcheckAuth_eq (f + 3) env st log obj
  by_cases hobj : (obj == "login") = true
  · refine ⟨.ok .unit, st, [], [], ?_, by simp, .inl rfl, fun _ => ⟨rfl, rfl, rfl, rfl⟩⟩
    rw [show f + 4 = (f + 3) + 1 from rfl, h0, if_pos hobj]
    simp
  · cases hk : st.api_key with
    | some k =>
      refine ⟨.ok .unit, st, [], [], ?_, by simp, .inl rfl, fun _ => ⟨rfl, rfl, rfl, rfl⟩⟩
      rw [show f + 4 = (f + 3) + 1 from rfl, h0, if_neg hobj, hk]
      simp
    | none =>
      obtain ⟨outc₀, st₀, ws₀, hauth, hdisj⟩ := auth_step env hs f st log
      have hnotSome : ¬ st.api_key.isSome = true := by rw [hk]; simp
      rcases hdisj with ⟨e, rfl, rfl, -⟩ | ⟨rfl, rfl, -⟩ | ⟨k, rfl, rfl, -⟩
      · refine ⟨.error e, st₀, [loginReq st], [], ?_, by simp, .inr ⟨e, rfl⟩,
          fun h => absurd h (by simp)⟩
        rw [show f + 4 = (f + 3) + 1 from rfl, h0, if_neg hobj, hk, hauth]
      · refine ⟨.ok .unit, st₀, [loginReq st], [], ?_, by simp, .inl rfl,
          fun h => absurd h (by simp)⟩
        rw [show f + 4 = (f + 3) + 1 from rfl, h0, if_neg hobj, hk, hauth]
      · refine ⟨.ok .unit, st₀, [loginReq st], [k], ?_, by simp,
          .inl rfl, fun h => absurd h (by simp)⟩
        rw [show f + 4 = (f + 3) + 1 from rfl, h0, if_neg hobj, hk, hauth]

/-- Under a `LoginSafe` environment, a `get`/`post` call with `retries = 1`
(a replay) terminates and sends at most two outbound requests — at most one
when a key is present on entry (the replay situation after a successful
re-authentication): an invalid-key error on it propagates with no further
attempt. -/
theorem retry_call_step (env : Env) (hs : LoginSafe env) (f : Nat) (st : St)
    (log : TraceLog) (v : Verb) (obj : String) (path : Option String)
    (params : Params) (data : Option Params) :
    ∃ outc st' reqs1 ws,
      run (f + 6) env st log (callProc v obj path params 1 data)
        = (some (outc, st'), ⟨log.reqs ++ reqs1, log.keyWrites ++ ws⟩) ∧
      reqs1.length ≤ 2 ∧
      (st.api_key.isSome = true → reqs1.length ≤ 1) := by
  obtain ⟨outcA, stA, reqsA, wsA, hca, hlenA, hshapeA, hsomeA⟩ :=
    checkAuth_step env hs (f + 1) st log obj
  have hca5 : run (f + 5) env st log (.pcheckAuth obj)
      = (some (outcA, stA), ⟨log.reqs ++ reqsA, log.keyWrites ++ wsA⟩) := hca
  have hsome1 : st.api_key.isSome = true → reqsA = [] := fun h => (hsomeA h).2.2.1
  cases v
  case get =>
    simp only [callProc]
    have h0 := run_pget_eq (f + 5) env st log obj path params 1
    rw [hca5] at h0
    rcases hshapeA with rfl | ⟨e, rfl⟩
    · simp only [] at h0
      cases hcr : checkResponse (env (log.reqs ++ reqsA).length
          (mkRequest stA .get (fullPath obj path)
            (Params.updateEntry params "format" "json") none)) with
      | ok o =>
        rw [hcr] at h0
        refine ⟨.ok (.outcome o), stA,
          reqsA ++ [mkRequest stA .get (fullPath obj path)
            (Params.updateEntry params "format" "json") none], wsA,
          by rw [h0]; simp,
          by simp only [List.length_append, List.length_cons, List.length_nil]; omega,
          fun hsome => by simp [hsome1 hsome]⟩
      | error err =>
        rw [hcr] at h0
        by_cases hm : (err.message == "Invalid API key or user key") = true
        · simp only [hm, if_true] at h0
          have hph : run (f + 5) env stA
              { TraceLog.mk (log.reqs ++ reqsA) (log.keyWrites ++ wsA) with
                reqs := (log.reqs ++ reqsA) ++
                  [mkRequest stA .get (fullPath obj path)
                    (Params.updateEntry params "format" "json") none] }
              (.phandle err 1 .get obj path (Params.updateEntry params "format" "json"))
              = (some (.error (.api err), stA),
                 { TraceLog.mk (log.reqs ++ reqsA) (log.keyWrites ++ wsA) with
                   reqs := (log.reqs ++ reqsA) ++
                     [mkRequest stA .get (fullPath obj path)
                       (Params.updateEntry params "format" "json") none] }) := by
            have hp := run_phandle_eq (f + 4) env stA
              { TraceLog.mk (log.reqs ++ reqsA) (log.keyWrites ++ wsA) with
                reqs := (log.reqs ++ reqsA) ++
                  [mkRequest stA .get (fullPath obj path)
                    (Params.updateEntry params "format" "json") none] }
              err 1 .get obj path (Params.updateEntry params "format" "json")
            rw [hp]
            simp
          refine ⟨.error (.api err), stA,
            reqsA ++ [mkRequest stA .get (fullPath obj path)
              (Params.updateEntry params "format" "json") none], wsA,
            by rw [h0, hph]; simp,
            by simp only [List.length_append, List.length_cons, List.length_nil]; omega,
            fun hsome => by simp [hsome1 hsome]⟩
        · simp only [hm, Bool.false_eq_true, if_false] at h0
          refine ⟨.error (.api err), stA,
            reqsA ++ [mkRequest stA .get (fullPath obj path)
              (Params.updateEntry params "format" "json") none], wsA,
            by rw [h0]; simp,
            by simp only [List.length_append, List.length_cons, List.length_nil]; omega,
            fun hsome => by simp [hsome1 hsome]⟩
    · simp only [] at h0
      exact ⟨.error e, stA, reqsA, wsA, h0, le_trans hlenA (by omega),
        fun hsome => by simp [hsome1 hsome]⟩
  case post =>
    simp only [callProc]
    have h0 := run_ppost_eq (f + 5) env st log obj path params 1 data
    rw [hca5] at h0
    rcases hshapeA with rfl | ⟨e, rfl⟩
    · simp only [] at h0
      cases hcr : checkResponse (env (log.reqs ++ reqsA).length
          (mkRequest stA .post (fullPath obj path)
            (Params.updateEntry params "format" "json") data)) with
      | ok o =>
        rw [hcr] at h0
        refine ⟨.ok (.outcome o), stA,
          reqsA ++ [mkRequest stA .post (fullPath obj path)
            (Params.updateEntry params "format" "json") data], wsA,
          by rw [h0]; simp,
          by simp only [List.length_append, List.length_cons, List.length_nil]; omega,
          fun hsome => by simp [hsome1 hsome]⟩
      | error err =>
        rw [hcr] at h0
        by_cases hm : (err.message == "Invalid API key or user key") = true
        · simp only [hm, if_true] at h0
          have hph : run (f + 5) env stA
              { TraceLog.mk (log.reqs ++ reqsA) (log.keyWrites ++ wsA) with
                reqs := (log.reqs ++ reqsA) ++
                  [mkRequest stA .post (fullPath obj path)
                    (Params.updateEntry params "format" "json") data] }
              (.phandle err 1 .post obj path (Params.updateEntry params "format" "json"))
              = (some (.error (.api err), stA),
                 { TraceLog.mk (log.reqs ++ reqsA) (log.keyWrites ++ wsA) with
                   reqs := (log.reqs ++ reqsA) ++
                     [mkRequest stA .post (fullPath obj path)
                       (Params.updateEntry params "format" "json") data] }) := by
            have hp := run_phandle_eq (f + 4) env stA
              { TraceLog.mk (log.reqs ++ reqsA) (log.keyWrites ++ wsA) with
                reqs := (log.reqs ++ reqsA) ++
                  [mkRequest stA .post (fullPath obj path)
                    (Params.updateEntry params "format" "json") data] }
              err 1 .post obj path (Params.updateEntry params "format" "json")
            rw [hp]
            simp
          refine ⟨.error (.api err), stA,
            reqsA ++ [mkRequest stA .post (fullPath obj path)
              (Params.updateEntry params "format" "json") data], wsA,
            by rw [h0, hph]; simp,
            by simp only [List.length_append, List.length_cons, List.length_nil]; omega,
            fun hsome => by simp [hsome1 hsome]⟩
        · simp only [hm, Bool.false_eq_true, if_false] at h0
          refine ⟨.error (.api err), stA,
            reqsA ++ [mkRequest stA .post (fullPath obj path)
              (Params.updateEntry params "format" "json") data], wsA,
            by rw [h0]; simp,
            by simp only [List.length_append, List.length_cons, List.length_nil]; omega,
            fun hsome => by simp [hsome1 hsome]⟩
    · simp only [] at h0
      exact ⟨.error e, stA, reqsA, wsA, h0, le_trans hlenA (by omega),
        fun hsome => by simp [hsome1 hsome]⟩

/-- C3 (amended): provided no login response is ever classified as an
invalid-key error, every `get`/`post` call (any object name) terminates with
at most 4 outbound requests: at most one pre-request authentication, the
original request, at most one error-triggered re-authentication and at most
one replay; an invalid-key error on the replay propagates with no further
attempt. -/
theorem retry_protocol_bounded (env : Env) (st : St) (v : Verb) (obj : String)
    (path : Option String) (params : Params) (data : Option Params) (f : Nat)
    (hs : LoginSafe env) :
    (run (f + 9) env st ⟨[], []⟩ (callProc v obj path params 0 data)).1.isSome = true ∧
    (run (f + 9) env st ⟨[], []⟩ (callProc v obj path params 0 data)).2.reqs.length ≤ 4 := by
  obtain ⟨outcA, stA, reqsA, wsA, hca, hlenA, hshapeA, hsomeA⟩ :=
    checkAuth_step env hs (f + 4) st ⟨[], []⟩ obj
  have hca8 : run (f + 8) env st ⟨[], []⟩ (.pcheckAuth obj)
      = (some (outcA, stA), ⟨reqsA, wsA⟩) := hca
  cases v
  case get =>
    simp only [callProc]
    have h0 : run (f + 9) env st ⟨[], []⟩ (.pget obj path params 0) = _ :=
      run_pget_eq (f + 8) env st ⟨[], []⟩ obj path params 0
    rw [hca8] at h0
    rcases hshapeA with rfl | ⟨e, rfl⟩
    · simp only [] at h0
      cases hcr : checkResponse (env reqsA.length
          (mkRequest stA .get (fullPath obj path)
            (Params.updateEntry params "format" "json") none)) with
      | ok o =>
        rw [hcr] at h0
        rw [h0]
        refine ⟨rfl, ?_⟩
        simp only [List.length_append, List.length_cons, List.length_nil]
        omega
      | error err =>
        rw [hcr] at h0
        by_cases hm : (err.message == "Invalid API key or user key") = true
        · simp only [hm, if_true] at h0
          have hph : run (f + 8) env stA
              { TraceLog.mk reqsA wsA with
                reqs := reqsA ++ [mkRequest stA .get (fullPath obj path)
                  (Params.updateEntry params "format" "json") none] }
              (.phandle err 0 .get obj path (Params.updateEntry params "format" "json")) = _ :=
            run_phandle_eq (f + 7) env stA
              { TraceLog.mk reqsA wsA with
                reqs := reqsA ++ [mkRequest stA .get (fullPath obj path)
                  (Params.updateEntry params "format" "json") none] }
              err 0 .get obj path (Params.updateEntry params "format" "json")
          simp only [bne_self_eq_false, Bool.false_eq_true, if_false] at hph
          obtain ⟨outcB, stB, wsB, hauth, hdisjB⟩ := auth_step env hs (f + 4)
            { stA with api_key := none }
            { TraceLog.mk (reqsA ++ [mkRequest stA .get (fullPath obj path)
                (Params.updateEntry params "format" "json") none]) wsA with
              keyWrites := wsA ++ [none] }
          have hauth7 : run (f + 7) env { stA with api_key := none }
              { TraceLog.mk (reqsA ++ [mkRequest stA .get (fullPath obj path)
                  (Params.updateEntry params "format" "json") none]) wsA with
                keyWrites := wsA ++ [none] } .pauth = _ := hauth
          rw [hauth7] at hph
          rcases hdisjB with ⟨e, rfl, rfl, -⟩ | ⟨rfl, rfl, -⟩ | ⟨k, rfl, rfl, hstB⟩
          · rw [h0, hph]
            refine ⟨rfl, ?_⟩
            simp only [List.length_append, List.length_cons, List.length_nil]
            omega
          · rw [h0, hph]
            refine ⟨rfl, ?_⟩
            simp only [List.length_append, List.length_cons, List.length_nil]
            omega
          · cases k with
            | none =>
              simp only [Option.isSome_none] at hph
              rw [h0, hph]
              refine ⟨rfl, ?_⟩
              simp only [List.length_append, List.length_cons, List.length_nil]
              omega
            | some x =>
              simp only [Option.isSome_some] at hph
              obtain ⟨outcC, stC, reqsC, wsC, hrc, hlenC, hsomeC⟩ :=
                retry_call_step env hs (f + 1) stB
                  ⟨reqsA ++ [mkRequest stA .get (fullPath obj path)
                      (Params.updateEntry params "format" "json") none] ++
                        [loginReq { stA with api_key := none }],
                   wsA ++ [none] ++ [some x]⟩
                  .get obj path (Params.updateEntry params "format" "json") none
              simp only [callProc] at hrc
              have hrc7 : run (f + 7) env stB
                  ⟨reqsA ++ [mkRequest stA .get (fullPath obj path)
                      (Params.updateEntry params "format" "json") none] ++
                        [loginReq { stA with api_key := none }],
                   wsA ++ [none] ++ [some x]⟩
                  (.pget obj path (Params.updateEntry params "format" "json") 1) = _ := hrc
              have hkeyB : stB.api_key.isSome = true := by rw [hstB]; simp
              rw [h0, hph, hrc7]
              refine ⟨rfl, ?_⟩
              have := hsomeC hkeyB
              simp only [List.length_append, List.length_cons, List.length_nil]
              omega
        · simp only [hm, Bool.false_eq_true, if_false] at h0
          rw [h0]
          refine ⟨rfl, ?_⟩
          simp only [List.length_append, List.length_cons, List.length_nil]
          omega
    · simp only [] at h0
      rw [h0]
      exact ⟨rfl, le_trans hlenA (by omega)⟩
  case post =>
    simp only [callProc]
    have h0 : run (f + 9) env st ⟨[], []⟩ (.ppost obj path params 0 data) = _ :=
      run_ppost_eq (f + 8) env st ⟨[], []⟩ obj path params 0 data
    rw [hca8] at h0
    rcases hshapeA with rfl | ⟨e, rfl⟩
    · simp only [] at h0
      cases hcr : checkResponse (env reqsA.length
          (mkRequest stA .post (fullPath obj path)
            (Params.updateEntry params "format" "json") data)) with
      | ok o =>
        rw [hcr] at h0
        rw [h0]
        refine ⟨rfl, ?_⟩
        simp only [List.length_append, List.length_cons, List.length_nil]
        omega
      | error err =>
        rw [hcr] at h0
        by_cases hm : (err.message == "Invalid API key or user key") = true
        · simp only [hm, if_true] at h0
          have hph : run (f + 8) env stA
              { TraceLog.mk reqsA wsA with
                reqs := reqsA ++ [mkRequest stA .post (fullPath obj path)
                  (Params.updateEntry params "format" "json") data] }
              (.phandle err 0 .post obj path (Params.updateEntry params "format" "json")) = _ :=
            run_phandle_eq (f + 7) env stA
              { TraceLog.mk reqsA wsA with
                reqs := reqsA ++ [mkRequest stA .post (fullPath obj path)
                  (Params.updateEntry params "format" "json") data] }
              err 0 .post obj path (Params.updateEntry params "format" "json")
          simp only [bne_self_eq_false, Bool.false_eq_true, if_false] at hph
          obtain ⟨outcB, stB, wsB, hauth, hdisjB⟩ := auth_step env hs (f + 4)
            { stA with api_key := none }
            { TraceLog.mk (reqsA ++ [mkRequest stA .post (fullPath obj path)
                (Params.updateEntry params "format" "json") data]) wsA with
              keyWrites := wsA ++ [none] }
          have hauth7 : run (f + 7) env { stA with api_key := none }
              { TraceLog.mk (reqsA ++ [mkRequest stA .post (fullPath obj path)
                  (Params.updateEntry params "format" "json") data]) wsA with
                keyWrites := wsA ++ [none] } .pauth = _ := hauth
          rw [hauth7] at hph
          rcases hdisjB with ⟨e, rfl, rfl, -⟩ | ⟨rfl, rfl, -⟩ | ⟨k, rfl, rfl, hstB⟩
          · rw [h0, hph]
            refine ⟨rfl, ?_⟩
            simp only [List.length_append, List.length_cons, List.length_nil]
            omega
          · rw [h0, hph]
            refine ⟨rfl, ?_⟩
            simp only [List.length_append, List.length_cons, List.length_nil]
            omega
          · cases k with
            | none =>
              simp only [Option.isSome_none] at hph
              rw [h0, hph]
              refine ⟨rfl, ?_⟩
              simp only [List.length_append, List.length_cons, List.length_nil]
              omega
            | some x =>
              simp only [Option.isSome_some] at hph
              obtain ⟨outcC, stC, reqsC, wsC, hrc, hlenC, hsomeC⟩ :=
                retry_call_step env hs (f + 1) stB
                  ⟨reqsA ++ [mkRequest stA .post (fullPath obj path)
                      (Params.updateEntry params "format" "json") data] ++
                        [loginReq { stA with api_key := none }],
                   wsA ++ [none] ++ [some x]⟩
                  .post obj path (Params.updateEntry params "format" "json") none
              simp only [callProc] at hrc
              have hrc7 : run (f + 7) env stB
                  ⟨reqsA ++ [mkRequest stA .post (fullPath obj path)
                      (Params.updateEntry params "format" "json") data] ++
                        [loginReq { stA with api_key := none }],
                   wsA ++ [none] ++ [some x]⟩
                  (.ppost obj path (Params.updateEntry params "format" "json") 1 none) = _ := hrc
              have hkeyB : stB.api_key.isSome = true := by rw [hstB]; simp
              rw [h0, hph, hrc7]
              refine ⟨rfl, ?_⟩
              have := hsomeC hkeyB
              simp only [List.length_append, List.length_cons, List.length_nil]
              omega
        · simp only [hm, Bool.false_eq_true, if_false] at h0
          rw [h0]
          refine ⟨rfl, ?_⟩
          simp only [List.length_append, List.length_cons, List.length_nil]
          omega
    · simp only [] at h0
      rw [h0]
      exact ⟨rfl, le_trans hlenA (by omega)⟩

/-- Counterexample to C3 as stated: with an environment that answers every
request — including login — with an invalid-key error, a single
`post('login')` call never terminates: with fuel for 30 steps it has already
sent at least 5 outbound requests (all of them login requests) and produced
no result, far beyond one re-authentication and one replay. -/
theorem retry_protocol_unbounded_counterexample :
    (run 30 envBad stKey ⟨[], []⟩ (callProc .post "login" none [] 0 none)).1 = none ∧
    5 ≤ (run 30 envBad stKey ⟨[], []⟩ (callProc .post "login" none [] 0 none)).2.reqs.length ∧
    ((run 30 envBad stKey ⟨[], []⟩ (callProc .post "login" none [] 0 none)).2.reqs.all
      (fun r => r.url == fullPath "login" none)) = true :=
  ⟨rfl, by decide, by decide⟩

/-- Witness for C3 (amended): under a login-safe environment whose other
responses always report an invalid key, a GET from the key-absent state
terminates within 4 outbound requests. -/
theorem retry_protocol_bounded_witness :
    (run 9 envSafe stNoKey ⟨[], []⟩ (callProc .get "prospect" none [] 0 none)).1.isSome = true ∧
    (run 9 envSafe stNoKey ⟨[], []⟩ (callProc .get "prospect" none [] 0 none)).2.reqs.length ≤ 4 :=
  retry_protocol_bounded envSafe stNoKey .get "prospect" none [] none 0
    (fun _ req h => by simp [envSafe, h]; rfl)

/-! ## Claim C8: the key-lifecycle invariant -/

/-- Predicate `goodW` composes over append: if the writes `xs` respect the discipline
from `a` and the writes `ys` respect it from the value current after `xs`,
the concatenation respects it from `a`. -/
theorem goodW_append (a : Option JVal) (xs ys : List (Option JVal))
    (h1 : goodW a xs = true) (h2 : goodW (xs.getLastD a) ys = true) :
    goodW a (xs ++ ys) = true := by
  induction xs generalizing a with
  | nil => simpa using h2
  | cons x xs ih =>
    simp only [List.getLastD_cons] at h2
    simp only [List.cons_append, goodW, Bool.and_eq_true] at h1 ⊢
    exact ⟨h1.1, ih x h1.2 h2⟩

/-- The last written value of a concatenation. -/
theorem getLastD_append_eq (a : Option JVal) (xs ys : List (Option JVal)) :
    (xs ++ ys).getLastD a = ys.getLastD (xs.getLastD a) := by
  induction xs generalizing a with
  | nil => rfl
  | cons x xs ih =>
    rw [List.cons_append, List.getLastD_cons, List.getLastD_cons, ih]

/-- Under a `LoginSafe` environment, the login POST issued by `authenticate`
performs no key writes and leaves the client state untouched, whatever the
fuel. -/
theorem login_post_no_writes (env : Env) (hs : LoginSafe env) (f : Nat) (st : St)
    (log : TraceLog) (d : Option Params) :
    (run f env st log (.ppost "login" none [] 0 d)).2.keyWrites = log.keyWrites ∧
    (∀ res st', (run f env st log (.ppost "login" none [] 0 d)).1 = some (res, st') →
      st' = st) := by
  rcases f with _ | _ | g
  · exact ⟨rfl, fun res st' h => by simp [run] at h⟩
  · refine ⟨rfl, fun res st' h => ?_⟩
    rw [show (run 1 env st log (.ppost "login" none [] 0 d)).1 = none from rfl] at h
    exact Option.noConfusion h
  · show (run (g + 2) env st log (.ppost "login" none [] 0 d)).2.keyWrites = log.keyWrites ∧ _
    have h0 : run (g + 2) env st log (.ppost "login" none [] 0 d) = _ :=
      run_ppost_eq (g + 1) env st log "login" none [] 0 d
    rw [run_pcheckAuth_eq g env st log "login"] at h0
    simp only [beq_self_eq_true, if_true] at h0
    cases hcr : checkResponse (env log.reqs.length
        (mkRequest st .post (fullPath "login" none)
          (Params.updateEntry [] "format" "json") d)) with
    | ok o =>
      rw [hcr] at h0
      refine ⟨by rw [h0], fun res st' h => ?_⟩
      rw [h0] at h
      simp only [Option.some.injEq, Prod.mk.injEq] at h
      exact h.2.symm
    | error err =>
      have hm : (err.message == "Invalid API key or user key") = false := by
        have hsafe := hs log.reqs.length (mkRequest st .post (fullPath "login" none)
          (Params.updateEntry [] "format" "json") d) rfl
        simp only [isInvalidKeyResp, hcr] at hsafe
        exact hsafe
      rw [hcr] at h0
      simp only [hm, Bool.false_eq_true, if_false] at h0
      refine ⟨by rw [h0], fun res st' h => ?_⟩
      rw [h0] at h
      simp only [Option.some.injEq, Prod.mk.injEq] at h
      exact h.2.symm

/-- Under a `LoginSafe` environment, every run of any core procedure (with
`authenticate` only entered from the key-absent state, as at both of its
internal call sites) appends a sequence of key writes that respects the
lifecycle discipline: every write installing a present key happens while the
current key value is absent; and the final state's key is the last written
value (or the initial one when nothing was written). -/
theorem keyWrites_good (env : Env) (hs : LoginSafe env) :
    ∀ (f : Nat) (st : St) (log : TraceLog) (p : Proc),
    (p = .pauth → st.api_key = none) →
    ∃ ws, (run f env st log p).2.keyWrites = log.keyWrites ++ ws ∧
      goodW st.api_key ws = true ∧
      (∀ res st', (run f env st log p).1 = some (res, st') →
        st'.api_key = ws.getLastD st.api_key) := by
  intro f
  induction f with
  | zero =>
    intro st log p hp
    exact ⟨[], by simp [run], by simp [goodW], fun res st' h => by simp [run] at h⟩
  | succ n ih =>
    intro st log p hp
    cases p with
    | pcheckAuth obj =>
      rw [run_pcheckAuth_eq]
      by_cases hobj : (obj == "login") = true
      · rw [if_pos hobj]
        exact ⟨[], by simp, by simp [goodW], fun res st' h => by
          simp only [Option.some.injEq, Prod.mk.injEq] at h
          rw [← h.2]
          rfl⟩
      · rw [if_neg hobj]
        cases hk : st.api_key with
        | some k =>
          exact ⟨[], by simp, by simp [goodW], fun res st' h => by
            simp only [Option.some.injEq, Prod.mk.injEq] at h
            rw [← h.2, hk]
            rfl⟩
        | none =>
          obtain ⟨wsA, hwA, hgA, hlA⟩ := ih st log .pauth (fun _ => hk)
          rw [hk] at hgA hlA
          rcases hr : run n env st log .pauth with ⟨r, log'⟩
          rw [hr] at hwA
          have hwA' : log'.keyWrites = log.keyWrites ++ wsA := hwA
          cases r with
          | none => exact ⟨wsA, hwA', hgA, fun res st' h => Option.noConfusion h⟩
          | some rp =>
            obtain ⟨res₀, st₀⟩ := rp
            cases res₀ with
            | error e =>
              refine ⟨wsA, hwA', hgA, fun res st' h => ?_⟩
              simp only [Option.some.injEq, Prod.mk.injEq] at h
              rw [← h.2]
              exact hlA (.error e) st₀ (by rw [hr])
            | ok v =>
              refine ⟨wsA, hwA', hgA, fun res st' h => ?_⟩
              simp only [Option.some.injEq, Prod.mk.injEq] at h
              rw [← h.2]
              exact hlA (.ok v) st₀ (by rw [hr])
    | pauth =>
      have hk : st.api_key = none := hp rfl
      rw [run_pauth_eq]
      obtain ⟨hw, hres⟩ := login_post_no_writes env hs n st log
        (some [("email", st.email), ("password", st.password), ("user_key", st.user_key)])
      rcases hr : run n env st log (.ppost "login" none [] 0
        (some [("email", st.email), ("password", st.password), ("user_key", st.user_key)]))
        with ⟨r, log'⟩
      rw [hr] at hw
      have hw' : log'.keyWrites = log.keyWrites := hw
      cases r with
      | none => exact ⟨[], by simp [hw'], by simp [goodW], fun res st' h =>
          Option.noConfusion h⟩
      | some rp =>
        obtain ⟨res₀, st₀⟩ := rp
        have hst₀ : st₀ = st := hres res₀ st₀ (by rw [hr])
        cases res₀ with
        | error e =>
          cases e with
          | api e' =>
            refine ⟨[], by simp [hw'], by simp [goodW], fun res st' h => ?_⟩
            simp only [Option.some.injEq, Prod.mk.injEq] at h
            rw [← h.2, hst₀]
            rfl
          | attrError =>
            refine ⟨[], by simp [hw'], by simp [goodW], fun res st' h => ?_⟩
            simp only [Option.some.injEq, Prod.mk.injEq] at h
            rw [← h.2, hst₀]
            rfl
        | ok v =>
          cases v with
          | unit => exact ⟨[], by simp [hw'], by simp [goodW], fun res st' h =>
              Option.noConfusion h⟩
          | bool b => exact ⟨[], by simp [hw'], by simp [goodW], fun res st' h =>
              Option.noConfusion h⟩
          | outcome o =>
            cases o with
            | status s =>
              refine ⟨[], by simp [hw'], by simp [goodW], fun res st' h => ?_⟩
              simp only [Option.some.injEq, Prod.mk.injEq] at h
              rw [← h.2, hst₀]
              rfl
            | json j =>
              refine ⟨[j.pyGet "api_key"], ?_, ?_, fun res st' h => ?_⟩
              · show log'.keyWrites ++ [j.pyGet "api_key"] = _
                rw [hw']
              · rw [hk]
                simp [goodW]
              · simp only [Option.some.injEq, Prod.mk.injEq] at h
                rw [← h.2]
                rfl
    | pget obj path params retries =>
      rw [run_pget_eq]
      obtain ⟨ws₁, hw₁, hg₁, hl₁⟩ := ih st log (.pcheckAuth obj)
        (fun h => Proc.noConfusion h)
      rcases hr₁ : run n env st log (.pcheckAuth obj) with ⟨r₁, log₁⟩
      rw [hr₁] at hw₁
      have hw₁' : log₁.keyWrites = log.keyWrites ++ ws₁ := hw₁
      cases r₁ with
      | none => exact ⟨ws₁, hw₁', hg₁, fun res st' h => Option.noConfusion h⟩
      | some rp =>
        obtain ⟨res₁, st₁⟩ := rp
        cases res₁ with
        | error e =>
          refine ⟨ws₁, hw₁', hg₁, fun res st' h => ?_⟩
          simp only [Option.some.injEq, Prod.mk.injEq] at h
          rw [← h.2]
          exact hl₁ (.error e) st₁ (by rw [hr₁])
        | ok u =>
          have hst₁ : st₁.api_key = ws₁.getLastD st.api_key :=
            hl₁ (.ok u) st₁ (by rw [hr₁])
          simp only []
          cases hcr : checkResponse (env log₁.reqs.length
              (mkRequest st₁ .get (fullPath obj path)
                (Params.updateEntry params "format" "json") none)) with
          | ok o =>
            refine ⟨ws₁, hw₁', hg₁, fun res st' h => ?_⟩
            simp only [Option.some.injEq, Prod.mk.injEq] at h
            rw [← h.2]
            exact hst₁
          | error err =>
            simp only []
            by_cases hm : (err.message == "Invalid API key or user key") = true
            · rw [if_pos hm]
              obtain ⟨ws₂, hw₂, hg₂, hl₂⟩ := ih st₁
                ⟨log₁.reqs ++ [mkRequest st₁ .get (fullPath obj path)
                  (Params.updateEntry params "format" "json") none], log₁.keyWrites⟩
                (.phandle err retries .get obj path
                  (Params.updateEntry params "format" "json"))
                (fun h => Proc.noConfusion h)
              refine ⟨ws₁ ++ ws₂, ?_, ?_, ?_⟩
              · show (run n env st₁
                  ⟨log₁.reqs ++ [mkRequest st₁ .get (fullPath obj path)
                    (Params.updateEntry params "format" "json") none], log₁.keyWrites⟩
                  (.phandle err retries .get obj path
                    (Params.updateEntry params "format" "json"))).2.keyWrites = _
                rw [hw₂]
                show log₁.keyWrites ++ ws₂ = _
                rw [hw₁', List.append_assoc]
              · exact goodW_append st.api_key ws₁ ws₂ hg₁ (by rw [← hst₁]; exact hg₂)
              · intro res st' h
                rw [getLastD_append_eq, ← hst₁]
                exact hl₂ res st'
                  (show (run n env st₁
                    ⟨log₁.reqs ++ [mkRequest st₁ .get (fullPath obj path)
                      (Params.updateEntry params "format" "json") none], log₁.keyWrites⟩
                    (.phandle err retries .get obj path
                      (Params.updateEntry params "format" "json"))).1 = some (res, st') from h)
            · rw [if_neg hm]
              refine ⟨ws₁, hw₁', hg₁, fun res st' h => ?_⟩
              simp only [Option.some.injEq, Prod.mk.injEq] at h
              rw [← h.2]
              exact hst₁
    | ppost obj path params retries data =>
      rw [run_ppost_eq]
      obtain ⟨ws₁, hw₁, hg₁, hl₁⟩ := ih st log (.pcheckAuth obj)
        (fun h => Proc.noConfusion h)
      rcases hr₁ : run n env st log (.pcheckAuth obj) with ⟨r₁, log₁⟩
      rw [hr₁] at hw₁
      have hw₁' : log₁.keyWrites = log.keyWrites ++ ws₁ := hw₁
      cases r₁ with
      | none => exact ⟨ws₁, hw₁', hg₁, fun res st' h => Option.noConfusion h⟩
      | some rp =>
        obtain ⟨res₁, st₁⟩ := rp
        cases res₁ with
        | error e =>
          refine ⟨ws₁, hw₁', hg₁, fun res st' h => ?_⟩
          simp only [Option.some.injEq, Prod.mk.injEq] at h
          rw [← h.2]
          exact hl₁ (.error e) st₁ (by rw [hr₁])
        | ok u =>
          have hst₁ : st₁.api_key = ws₁.getLastD st.api_key :=
            hl₁ (.ok u) st₁ (by rw [hr₁])
          simp only []
          cases hcr : checkResponse (env log₁.reqs.length
              (mkRequest st₁ .post (fullPath obj path)
                (Params.updateEntry params "format" "json") data)) with
          | ok o =>
            refine ⟨ws₁, hw₁', hg₁, fun res st' h => ?_⟩
            simp only [Option.some.injEq, Prod.mk.injEq] at h
            rw [← h.2]
            exact hst₁
          | error err =>
            simp only []
            by_cases hm : (err.message == "Invalid API key or user key") = true
            · rw [if_pos hm]
              obtain ⟨ws₂, hw₂, hg₂, hl₂⟩ := ih st₁
                ⟨log₁.reqs ++ [mkRequest st₁ .post (fullPath obj path)
                  (Params.updateEntry params "format" "json") data], log₁.keyWrites⟩
                (.phandle err retries .post obj path
                  (Params.updateEntry params "format" "json"))
                (fun h => Proc.noConfusion h)
              refine ⟨ws₁ ++ ws₂, ?_, ?_, ?_⟩
              · show (run n env st₁
                  ⟨log₁.reqs ++ [mkRequest st₁ .post (fullPath obj path)
                    (Params.updateEntry params "format" "json") data], log₁.keyWrites⟩
                  (.phandle err retries .post obj path
                    (Params.updateEntry params "format" "json"))).2.keyWrites = _
                rw [hw₂]
                show log₁.keyWrites ++ ws₂ = _
                rw [hw₁', List.append_assoc]
              · exact goodW_append st.api_key ws₁ ws₂ hg₁ (by rw [← hst₁]; exact hg₂)
              · intro res st' h
                rw [getLastD_append_eq, ← hst₁]
                exact hl₂ res st'
                  (show (run n env st₁
                    ⟨log₁.reqs ++ [mkRequest st₁ .post (fullPath obj path)
                      (Params.updateEntry params "format" "json") data], log₁.keyWrites⟩
                    (.phandle err retries .post obj path
                      (Params.updateEntry params "format" "json"))).1 = some (res, st') from h)
            · rw [if_neg hm]
              refine ⟨ws₁, hw₁', hg₁, fun res st' h => ?_⟩
              simp only [Option.some.injEq, Prod.mk.injEq] at h
              rw [← h.2]
              exact hst₁
    | phandle err retries method obj path params =>
      rw [run_phandle_eq]
      by_cases hret : (retries != 0) = true
      · rw [if_pos hret]
        exact ⟨[], by simp, by simp [goodW], fun res st' h => by
          simp only [Option.some.injEq, Prod.mk.injEq] at h
          rw [← h.2]
          rfl⟩
      · rw [if_neg hret]
        obtain ⟨ws₂, hw₂, hg₂, hl₂⟩ := ih { st with api_key := none }
          { log with keyWrites := log.keyWrites ++ [none] } .pauth (fun _ => rfl)
        have hg₂' : goodW none ws₂ = true := hg₂
        rcases hr₂ : run n env { st with api_key := none }
          { log with keyWrites := log.keyWrites ++ [none] } .pauth with ⟨r₂, log₂⟩
        rw [hr₂] at hw₂
        have hw₂' : log₂.keyWrites = (log.keyWrites ++ [none]) ++ ws₂ := hw₂
        cases r₂ with
        | none =>
          refine ⟨none :: ws₂, ?_, by simp [goodW, hg₂'], fun res st' h =>
            Option.noConfusion h⟩
          show log₂.keyWrites = _
          rw [hw₂']
          simp
        | some rp =>
          obtain ⟨res₂, st₂⟩ := rp
          cases res₂ with
          | error e =>
            refine ⟨none :: ws₂, ?_, by simp [goodW, hg₂'], fun res st' h => ?_⟩
            · show log₂.keyWrites = _
              rw [hw₂']
              simp
            · have hst₂ : st₂.api_key = ws₂.getLastD none :=
                hl₂ (.error e) st₂ (by rw [hr₂])
              simp only [Option.some.injEq, Prod.mk.injEq] at h
              rw [List.getLastD_cons, ← h.2]
              exact hst₂
          | ok v =>
            cases v with
            | unit =>
              refine ⟨none :: ws₂, ?_, by simp [goodW, hg₂'], fun res st' h =>
                Option.noConfusion h⟩
              show log₂.keyWrites = _
              rw [hw₂']
              simp
            | outcome o =>
              refine ⟨none :: ws₂, ?_, by simp [goodW, hg₂'], fun res st' h =>
                Option.noConfusion h⟩
              show log₂.keyWrites = _
              rw [hw₂']
              simp
            | bool b =>
              cases b with
              | false =>
                refine ⟨none :: ws₂, ?_, by simp [goodW, hg₂'], fun res st' h => ?_⟩
                · show log₂.keyWrites = _
                  rw [hw₂']
                  simp
                · have hst₂ : st₂.api_key = ws₂.getLastD none :=
                    hl₂ (.ok (.bool false)) st₂ (by rw [hr₂])
                  simp only [Option.some.injEq, Prod.mk.injEq] at h
                  rw [List.getLastD_cons, ← h.2]
                  exact hst₂
              | true =>
                have hst₂ : st₂.api_key = ws₂.getLastD none :=
                  hl₂ (.ok (.bool true)) st₂ (by rw [hr₂])
                cases method with
                | get =>
                  obtain ⟨ws₃, hw₃, hg₃, hl₃⟩ := ih st₂ log₂
                    (.pget obj path params 1) (fun h => Proc.noConfusion h)
                  refine ⟨none :: (ws₂ ++ ws₃), ?_, ?_, ?_⟩
                  · show (run n env st₂ log₂ (.pget obj path params 1)).2.keyWrites = _
                    rw [hw₃, hw₂']
                    simp
                  · simp only [goodW, Bool.and_eq_true]
                    exact ⟨by simp,
                      goodW_append none ws₂ ws₃ hg₂' (by rw [← hst₂]; exact hg₃)⟩
                  · intro res st' h
                    rw [List.getLastD_cons, getLastD_append_eq, ← hst₂]
                    exact hl₃ res st'
                      (show (run n env st₂ log₂ (.pget obj path params 1)).1
                        = some (res, st') from h)
                | post =>
                  obtain ⟨ws₃, hw₃, hg₃, hl₃⟩ := ih st₂ log₂
                    (.ppost obj path params 1 none) (fun h => Proc.noConfusion h)
                  refine ⟨none :: (ws₂ ++ ws₃), ?_, ?_, ?_⟩
                  · show (run n env st₂ log₂ (.ppost obj path params 1 none)).2.keyWrites = _
                    rw [hw₃, hw₂']
                    simp
                  · simp only [goodW, Bool.and_eq_true]
                    exact ⟨by simp,
                      goodW_append none ws₂ ws₃ hg₂' (by rw [← hst₂]; exact hg₃)⟩
                  · intro res st' h
                    rw [List.getLastD_cons, getLastD_append_eq, ← hst₂]
                    exact hl₃ res st'
                      (show (run n env st₂ log₂ (.ppost obj path params 1 none)).1
                        = some (res, st') from h)

/-- Counterexample to C8 as stated: `authenticate()` is an operation of the
core that the spec says is always safe to call repeatedly, yet calling it a
second time from the key-present state reached by a first successful call
overwrites the present key `k2` directly with `k3` — a present→present
replacement with no intervening clear, violating the claimed write
discipline (`goodW`). -/
theorem key_lifecycle_counterexample :
    run 5 envTwoKeys stNoKey ⟨[], []⟩ .pauth
      = (some (.ok (.bool true), ⟨"e@x.com", "pw", "uk", some (.str "k2")⟩),
         ⟨[loginReq stNoKey], [some (.str "k2")]⟩) ∧
    run 5 envTwoKeys ⟨"e@x.com", "pw", "uk", some (.str "k2")⟩
        ⟨[loginReq stNoKey], [some (.str "k2")]⟩ .pauth
      = (some (.ok (.bool true), ⟨"e@x.com", "pw", "uk", some (.str "k3")⟩),
         ⟨[loginReq stNoKey, loginReq ⟨"e@x.com", "pw", "uk", some (.str "k2")⟩],
          [some (.str "k2"), some (.str "k3")]⟩) ∧
    goodW stNoKey.api_key [some (JVal.str "k2"), some (JVal.str "k3")] = false :=
  ⟨rfl, rfl, by decide⟩

/-- C8 (amended): under a `LoginSafe` environment, every run of the public
entry points `get`/`post` respects the key-lifecycle discipline: every write
installing a present key happens while the key cell is absent — replacement
always goes through clear-then-fresh-login, never a direct present→present
overwrite.  (A direct `authenticate()` call on a key-present state, or a
login endpoint answering with the invalid-key error, can still overwrite
present→present.) -/
theorem key_lifecycle_amended (f : Nat) (env : Env) (st : St) (v : Verb)
    (obj : String) (path : Option String) (params : Params) (data : Option Params)
    (retries : Nat) (hs : LoginSafe env) :
    goodW st.api_key
      ((run f env st ⟨[], []⟩ (callProc v obj path params retries data)).2.keyWrites)
      = true := by
  obtain ⟨ws, hw, hg, -⟩ := keyWrites_good env hs f st ⟨[], []⟩
    (callProc v obj path params retries data) (by cases v <;> simp [callProc])
  rw [hw]
  simpa using hg

/-- Witness for C8 (amended): the full retry scenario under a login-safe
environment respects the discipline. -/
theorem key_lifecycle_amended_witness :
    goodW stNoKey.api_key
      ((run 9 envSafe stNoKey ⟨[], []⟩ (callProc .get "prospect" none [] 0 none)).2.keyWrites)
      = true :=
  key_lifecycle_amended 9 envSafe stNoKey .get "prospect" none [] none 0
    (fun _ req h => by simp [envSafe, h]; rfl)
